import Mathlib

/-!
# Renderer test driver (`Renderer/TestDriver/TestDriver.cpp`)

A shallow embedding of the benchmark harness: the command-line loop of `main`,
the constructor and destructor of `TestDriver`, and `TestDriver::Run`.

The rasteriser, the scenes, the frame buffer, the performance counter and
`StringToInt` live outside this file of the repository.  They are collected in a
`World`: what each call returns (or raises) is a field of the world, and every
call the harness issues is recorded as an `Event`, in program order.  Elapsed
times are exact rationals.
-/

namespace RasterRenderer

/-! ## Data model -/

/-- Four-component vector, the argument of `Clear` and the type of `ClearColor`. -/
structure Vec4 where
  x : ℚ
  y : ℚ
  z : ℚ
  w : ℚ
deriving DecidableEq

/-- What a collaborator can raise: `CoreLib::IO::IOException` is caught by the first
handler of `main`, every other `Exception` by the second. -/
inductive Exn where
  | IOException (Message : String)
  | Exception (Message : String)
deriving DecidableEq

/-- A scene as the harness sees it: its declared clear colour, and the rest of the
object (geometry, state), which the harness only hands back to `Draw`. -/
structure TestScene where
  ClearColor : Vec4
  content : Nat
deriving DecidableEq

/-- Calls issued by the harness, in program order.  `TestDriver` is the constructor
call of line 176 with its six arguments.  `CreateTestScene n b` is the call of
`CreateTestScene<n>`; `b` is the base directory when the constructor takes one (the
`viewSettings` member, default-constructed and the same in every call, is left
out). -/
inductive Event where
  | printf (text : String)
  | printfFrameTime (ms : ℚ)
  | TestDriver (Width Height : Int) (tiled : Bool) (test output baseDir : String)
  | FrameBuffer (Width Height : Int)
  | CreateTiledRenderer
  | CreateForwardNonTiledRenderer
  | SetFrameBuffer
  | CreateTestScene (n : Nat) (baseDir : Option String)
  | Clear (color : Vec4)
  | Draw (scene : TestScene)
  | Finish
  | PerformanceCounterStart
  | PerformanceCounterEnd
  | SaveColorBuffer (fileName : String)
  | DestroyRenderer
deriving DecidableEq

/-- The collaborators.  `StringToInt` returns a C `int`, which `main` only stores and
compares, so it is kept as an integer.  `fault k` is what the `k`-th renderer
operation of a run raises, counting `Clear`, `Draw`, `Finish` from 0 (pass `p` issues operations
`3p`, `3p+1`, `3p+2`; pass 0 is the warm-up); `elapsed i` is the number of seconds
the performance counter measures around timed pass `i`. -/
structure World where
  StringToInt : String → Int
  CreateTestScene : Nat → Option String → Except Exn TestScene
  fault : Nat → Option Exn
  saveFault : Option Exn
  elapsed : Nat → ℚ

/-- Trace of a program fragment together with its value, or the exception that
ended it. -/
structure Outcome (α : Type) where
  trace : List Event
  result : Except Exn α

namespace Outcome

/-- Sequencing: the second fragment runs only when the first did not raise. -/
def bind {α β : Type} (m : Outcome α) (f : α → Outcome β) : Outcome β :=
  match m.result with
  | .error e => ⟨m.trace, .error e⟩
  | .ok a => ⟨m.trace ++ (f a).trace, (f a).result⟩

instance : Monad Outcome where
  pure a := ⟨[], .ok a⟩
  bind := Outcome.bind

/-- One call that cannot raise. -/
def emit (e : Event) : Outcome Unit := ⟨[e], .ok ()⟩

/-- One call that raises `x` when `x` is given. -/
def call (e : Event) (x : Option Exn) : Outcome Unit :=
  match x with
  | none => ⟨[e], .ok ()⟩
  | some ex => ⟨[e], .error ex⟩

/-- A call that returns a value or raises. -/
def callWith {α : Type} (e : Event) (r : Except Exn α) : Outcome α := ⟨[e], r⟩

end Outcome

open Outcome

/-! ## `TestDriver` -/

namespace Testing

/-- The members of `TestDriver` the harness itself owns (renderer and frame buffer
are collaborators; the frame buffer keeps `Width` and `Height`). -/
structure TestDriver where
  baseDir : String
  testName : String
  outputFileName : String
  Width : Int
  Height : Int
  tiled : Bool
deriving DecidableEq

/-- Constructor, lines 27-36: the frame buffer member, then the renderer from the
factory chosen by `tiled`, then `SetFrameBuffer`. -/
def TestDriver.construct (Width Height : Int) (tiled : Bool)
    (test output baseDir : String) : Outcome TestDriver := do
  emit (.TestDriver Width Height tiled test output baseDir)
  emit (.FrameBuffer Width Height)
  if tiled then emit .CreateTiledRenderer else emit .CreateForwardNonTiledRenderer
  emit .SetFrameBuffer
  pure ⟨baseDir, test, output, Width, Height, tiled⟩

/-- Destructor, lines 38-41. -/
def TestDriver.destroy (_d : TestDriver) : List Event := [.DestroyRenderer]

/-- The if/else chain of lines 49-69: which constructor the name selects and whether
it is given `baseDir`; `none` is the final `else`. -/
def TestDriver.selectScene (d : TestDriver) : Option (Nat × Option String) :=
  if d.testName = "triangle" then some (0, none)
  else if d.testName = "square" then some (1, some d.baseDir)
  else if d.testName = "sibenik" then some (2, some d.baseDir)
  else if d.testName = "bunny" then some (3, some d.baseDir)
  else if d.testName = "sponza" then some (4, some d.baseDir)
  else if d.testName = "warehouse" then some (5, some d.baseDir)
  else if d.testName = "alphablend" then some (6, none)
  else if d.testName = "station" then some (7, some d.baseDir)
  else none

/-- One pass `Clear; Draw; Finish` (lines 74-76 and 84-86), pass number `p`. -/
def renderPass (w : World) (p : Nat) (color : Vec4) (scene : TestScene) : Outcome Unit := do
  call (.Clear color) (w.fault (3 * p))
  call (.Draw scene) (w.fault (3 * p + 1))
  call .Finish (w.fault (3 * p + 2))

/-- Line 88. -/
def minStep (elapsed minTime : ℚ) : ℚ :=
  if elapsed < minTime then elapsed else minTime

/-- The `for` loop of lines 81-89 with `remaining = frameCount - i` iterations left. -/
def timedLoop (w : World) (scene : TestScene) : (remaining : Nat) → (i : Nat) → (minTime : ℚ) → Outcome ℚ
  | 0, _, minTime => pure minTime
  | remaining + 1, i, minTime => do
      emit .PerformanceCounterStart
      renderPass w (i + 1) scene.ClearColor scene
      emit .PerformanceCounterEnd
      let elapsed := w.elapsed i
      timedLoop w scene remaining (i + 1) (minStep elapsed minTime)

/-- Line 79. -/
def frameCount : Nat := 6

/-- Line 80: `double minTime = 10e10`. -/
def minTimeInit : ℚ := 100000000000

/-- `TestDriver::Run`, lines 43-94. -/
def TestDriver.Run (w : World) (d : TestDriver) : Outcome Unit := do
  emit (.printf "Loading scene...\n")
  match d.selectScene with
  | none => emit (.printf ("Unknown scene \"" ++ d.testName ++ "\".\n"))
  | some (n, b) =>
    let scene ← callWith (.CreateTestScene n b) (w.CreateTestScene n b)
    emit (.printf ("Rendering scene: " ++ d.testName ++ " (" ++ toString d.Width ++ "x"
      ++ toString d.Height ++ ")\n"))
    renderPass w 0 ⟨0, 0, 0, 0⟩ scene
    let minTime ← timedLoop w scene frameCount 0 minTimeInit
    emit (.printfFrameTime (1000 * minTime))
    call (.SaveColorBuffer d.outputFileName) w.saveFault

end Testing

/-! ## `main` -/

/-- Text printed by `Usage`, lines 99-107. -/
def Usage (binaryName : String) : Event :=
  .printf ("Renderer Test Driver\nUsage:\n   " ++ binaryName
    ++ " testname [-w imagewidth] [-h imageweight] [-tiled] [-mediadir dir]\n\n"
    ++ "   testname can be: triangle, square, sibenik, bunny, sponza, warehouse, alphablend, station\n\n"
    ++ "   mediadir: base directory without trialing slash: e.g., ../../Media\n\n")

/-- The locals of `main`, lines 111-118. -/
structure Locals where
  width : Int
  height : Int
  testName : String
  testOutput : String
  baseDir : String
  tiled : Bool
  ptr : Nat
deriving DecidableEq

/-- How the command-line loop ends.  `badAccess i` is a read of `argv[i]` with
`i ≥ argc`; `outOfFuel` is the loop still running when the step budget is spent. -/
inductive ParseResult where
  | parsed (a : Locals)
  | usageExit
  | badAccess (i : Nat)
  | outOfFuel
deriving DecidableEq

/-- Lines 123-145: the value-taking options, tried only when `ptr < argc - 1`. -/
def optionStep (StringToInt : String → Int) (argv : List String) (a : Locals) :
    Except Nat Locals :=
  if (a.ptr : Int) < (argv.length : Int) - 1 then
    match argv[a.ptr]? with
    | none => .error a.ptr
    | some s =>
      if s = "-o" then
        match argv[a.ptr + 1]? with
        | none => .error (a.ptr + 1)
        | some v => .ok { a with ptr := a.ptr + 1, testOutput := v }
      else if s = "-w" then
        match argv[a.ptr + 1]? with
        | none => .error (a.ptr + 1)
        | some v => .ok { a with ptr := a.ptr + 1, width := StringToInt v }
      else if s = "-h" then
        match argv[a.ptr + 1]? with
        | none => .error (a.ptr + 1)
        | some v => .ok { a with ptr := a.ptr + 1, height := StringToInt v }
      else if s = "-mediadir" then
        match argv[a.ptr + 1]? with
        | none => .error (a.ptr + 1)
        | some v => .ok { a with ptr := a.ptr + 1, baseDir := v }
      else .ok a
  else .ok a

/-- Lines 146-157: `-tiled`, the help tokens, and `ptr++`. -/
def flagStep (argv : List String) (a : Locals) : ParseResult :=
  match argv[a.ptr]? with
  | none => .badAccess a.ptr
  | some s =>
    if s = "-tiled" then .parsed { a with tiled := true, ptr := a.ptr + 1 }
    else if s = "-help" ∨ s = "--help" ∨ s = "-?" then .usageExit
    else .parsed { a with ptr := a.ptr + 1 }

/-- One iteration of the loop, lines 123-157. -/
def loopBody (StringToInt : String → Int) (argv : List String) (a : Locals) : ParseResult :=
  match optionStep StringToInt argv a with
  | .error i => .badAccess i
  | .ok a1 => flagStep argv a1

/-- The `while (ptr < argc)` loop, lines 121-158, run for at most `fuel` iterations. -/
def parseLoop (StringToInt : String → Int) (argv : List String) : Nat → Locals → ParseResult
  | 0, a => if a.ptr < argv.length then .outOfFuel else .parsed a
  | fuel + 1, a =>
    if a.ptr < argv.length then
      match loopBody StringToInt argv a with
      | .parsed a2 => parseLoop StringToInt argv fuel a2
      | r => r
    else .parsed a

/-- Lines 111-120: the defaults, and `testName = argv[1]` when `argc >= 2`. -/
def initLocals (argv : List String) : Locals :=
  { width := 1024, height := 768,
    testName := if 2 ≤ argv.length then argv.getD 1 "" else "sponza",
    testOutput := "", baseDir := "./Media", tiled := false, ptr := 1 }

/-- Lines 111-158.  Every iteration advances `ptr`, so `argc` iterations suffice. -/
def parseArgs (StringToInt : String → Int) (argv : List String) : ParseResult :=
  parseLoop StringToInt argv argv.length (initLocals argv)

/-- What the process did: the calls it issued, and its exit status (`none` when it
did not reach an exit: a bad read of `argv` or a spent step budget). -/
structure Exit where
  trace : List Event
  status : Option Int
deriving DecidableEq

/-- The banner of lines 172-175. -/
def banner (tiled : Bool) : Event :=
  if !tiled then .printf "*** Running REFERENCE non-tiled renderer implementation ***\n"
  else .printf "*** Running TILED renderer implementation ***\n"

/-- The two handlers, lines 179-187. -/
def catchEvents : Exn → List Event
  | .IOException Message =>
    [.printf (Message ++ "\n"),
      .printf "Make sure the 'Media' directory is placed in the current working dir, or basepath set using -mediadir\n"]
  | .Exception Message => [.printf Message]

/-- The `try` block with its two handlers, lines 170-187: the banner, the driver's
construction, `Run`, the driver's destructor when the scope is left (normally or
by an exception), then the handler's output. -/
def tryBlock (w : World) (a : Locals) (testOutput : String) : List Event :=
  let c := Testing.TestDriver.construct a.width a.height a.tiled a.testName testOutput a.baseDir
  match c.result with
  | .error x => banner a.tiled :: c.trace ++ catchEvents x
  | .ok driver =>
    let r := driver.Run w
    banner a.tiled :: c.trace ++ r.trace ++ driver.destroy ++
      (match r.result with
        | .ok _ => []
        | .error x => catchEvents x)

/-- `main`, lines 109-192. -/
def main (w : World) (argv : List String) : Exit :=
  match parseArgs w.StringToInt argv with
  | .usageExit => ⟨[Usage (argv.getD 0 "")], some 0⟩
  | .badAccess _ => ⟨[], none⟩
  | .outOfFuel => ⟨[], none⟩
  | .parsed a =>
    if a.width ≤ 0 ∨ a.width > 4096 ∨ a.height ≤ 0 ∨ a.height > 4096 then
      ⟨[.printf "Invalid resolution.\n"], some (-1)⟩
    else
      let testOutput := if a.testOutput = "" then a.testName ++ "_output.bmp" else a.testOutput
      ⟨tryBlock w a testOutput, some 0⟩

/-! ## Vocabulary of the statements -/

open Testing

/-- The events of one pass. -/
def passEvents (color : Vec4) (scene : TestScene) : List Event :=
  [.Clear color, .Draw scene, .Finish]

/-- The events of one timed pass, with the two timer calls around it. -/
def timedPassEvents (scene : TestScene) : List Event :=
  .PerformanceCounterStart :: passEvents scene.ClearColor scene ++ [.PerformanceCounterEnd]

/-- The running minimum after the samples `i, i+1, ..., i+remaining-1`, started at `minTime`. -/
def runningMin (w : World) : (remaining : Nat) → (i : Nat) → (minTime : ℚ) → ℚ
  | 0, _, minTime => minTime
  | remaining + 1, i, minTime => runningMin w remaining (i + 1) (minStep (w.elapsed i) minTime)

/-- The trace of a run that finds its scene and meets no fault, up to the last timed
pass. -/
def runPrefixEvents (d : TestDriver) (n : Nat) (b : Option String) (scene : TestScene) :
    List Event :=
  [.printf "Loading scene...\n", .CreateTestScene n b,
    .printf ("Rendering scene: " ++ d.testName ++ " (" ++ toString d.Width ++ "x"
      ++ toString d.Height ++ ")\n")]
  ++ passEvents ⟨0, 0, 0, 0⟩ scene
  ++ (List.replicate frameCount (timedPassEvents scene)).flatten

/-- The whole trace of a run that finds its scene and meets no fault. -/
def runEvents (w : World) (d : TestDriver) (n : Nat) (b : Option String) (scene : TestScene) :
    List Event :=
  runPrefixEvents d n b scene
  ++ [.printfFrameTime (1000 * runningMin w frameCount 0 minTimeInit),
      .SaveColorBuffer d.outputFileName]

/-- The eight scene names. -/
def sceneNames : List String :=
  ["triangle", "square", "sibenik", "bunny", "sponza", "warehouse", "alphablend", "station"]

/-- The renderer operations among the events. -/
def rendererOps (t : List Event) : List Event :=
  t.filter fun e => match e with
    | .Clear _ => true
    | .Draw _ => true
    | .Finish => true
    | _ => false

/-- The scene-constructor calls among the events. -/
def sceneCalls (t : List Event) : List Event :=
  t.filter fun e => match e with
    | .CreateTestScene _ _ => true
    | _ => false

/-- The `SaveColorBuffer` calls among the events. -/
def saveCalls (t : List Event) : List Event :=
  t.filter fun e => match e with
    | .SaveColorBuffer _ => true
    | _ => false

/-! ## Sample inputs -/

/-- A world without faults: `StringToInt` reads decimal digits, constructor `n` returns
scene `n` with a grey clear colour, and timed pass `i` takes `i + 2` seconds. -/
def quietWorld : World where
  StringToInt s := (s.data.foldl (fun n c => 10 * n + (c.toNat - 48)) 0 : Nat)
  CreateTestScene n _ := .ok ⟨⟨1, 1, 1, 1⟩, n⟩
  fault _ := none
  saveFault := none
  elapsed i := (i : ℚ) + 2

/-- The scene constructor 0 of `quietWorld` returns this scene. -/
def quietTriangle : TestScene := ⟨⟨1, 1, 1, 1⟩, 0⟩

/-- A driver for the scene `triangle` at 64 by 64. -/
def triangleDriver : TestDriver :=
  ⟨"./Media", "triangle", "triangle_output.bmp", 64, 64, false⟩

/-- The events `TestDriver::Run` can issue after the scene constructor returned `scene`. -/
def afterSceneEvent (d : TestDriver) (scene : TestScene) (e : Event) : Prop :=
  e = .printf ("Rendering scene: " ++ d.testName ++ " (" ++ toString d.Width ++ "x"
      ++ toString d.Height ++ ")\n")
  ∨ e ∈ passEvents ⟨0, 0, 0, 0⟩ scene ∨ e ∈ timedPassEvents scene
  ∨ (∃ ms, e = .printfFrameTime ms) ∨ e = .SaveColorBuffer d.outputFileName

/-- A driver for a scene name outside the chain. -/
def unknownDriver : TestDriver :=
  ⟨"./Media", "doesnotexist", "doesnotexist_output.bmp", 1024, 768, false⟩

/-- A driver for the scene `sponza` with its media in `../../Media`. -/
def sponzaDriver : TestDriver :=
  ⟨"../../Media", "sponza", "sponza_output.bmp", 1024, 768, true⟩

/-- A fault-free world whose timed passes all take 2e11 seconds, more than the initial
value of the running minimum. -/
def slowWorld : World where
  StringToInt := quietWorld.StringToInt
  CreateTestScene n _ := .ok ⟨⟨1, 1, 1, 1⟩, n⟩
  fault _ := none
  saveFault := none
  elapsed _ := 200000000000

/-- The three help tokens. -/
def isHelpToken (s : String) : Prop := s = "-help" ∨ s = "--help" ∨ s = "-?"

instance (s : String) : Decidable (isHelpToken s) := by unfold isHelpToken; infer_instance

/-- The four options that take a value. -/
def isValueOption (s : String) : Prop := s = "-o" ∨ s = "-w" ∨ s = "-h" ∨ s = "-mediadir"

instance (s : String) : Decidable (isValueOption s) := by unfold isValueOption; infer_instance

/-- The options and flags of the command line. -/
def isFlagToken (s : String) : Prop := isValueOption s ∨ s = "-tiled" ∨ isHelpToken s

instance (s : String) : Decidable (isFlagToken s) := by unfold isFlagToken; infer_instance

/-- The calls `main` issues from the banner to the end of the driver's constructor. -/
def mainPrologue (a : Locals) (testOutput : String) : List Event :=
  [banner a.tiled, .TestDriver a.width a.height a.tiled a.testName testOutput a.baseDir,
    .FrameBuffer a.width a.height,
    if a.tiled then .CreateTiledRenderer else .CreateForwardNonTiledRenderer,
    .SetFrameBuffer]

/-- The first non-flag argument as the specification words it: the first argument
(after the binary name) that is neither an option or flag nor the value consumed
by a preceding `-o`, `-w`, `-h` or `-mediadir`; `sponza` when there is none. -/
def firstNonFlagArgument : List String → String
  | [] => "sponza"
  | [s] => if isFlagToken s then "sponza" else s
  | s :: v :: rest =>
    if isValueOption s then firstNonFlagArgument rest
    else if isFlagToken s then firstNonFlagArgument (v :: rest)
    else s

/-- The arguments `flag value` of an option that is given, nothing for one left out. -/
def optionArgs (flag : String) : Option String → List String
  | none => []
  | some value => [flag, value]

/-- The renderer-factory calls among the events. -/
def rendererCreations (t : List Event) : List Event :=
  t.filter fun e => match e with
    | .CreateTiledRenderer => true
    | .CreateForwardNonTiledRenderer => true
    | _ => false

/-- The `DestroyRenderer` calls among the events. -/
def destroyCalls (t : List Event) : List Event :=
  t.filter fun e => match e with
    | .DestroyRenderer => true
    | _ => false

/-- The calls that use the renderer: `SetFrameBuffer`, `Clear`, `Draw` (the scene draws
into it), `Finish` and `DestroyRenderer`. -/
def usesRenderer : Event → Bool
  | .SetFrameBuffer => true
  | .Clear _ => true
  | .Draw _ => true
  | .Finish => true
  | .DestroyRenderer => true
  | _ => false

/-- The events `TestDriver::Run` can issue at all. -/
def isRunEvent : Event → Bool
  | .printf _ => true
  | .printfFrameTime _ => true
  | .CreateTestScene _ _ => true
  | .Clear _ => true
  | .Draw _ => true
  | .Finish => true
  | .PerformanceCounterStart => true
  | .PerformanceCounterEnd => true
  | .SaveColorBuffer _ => true
  | _ => false

/-- The resolution test of line 159, negated: both sizes in (0, 4096]. -/
def validResolution (a : Locals) : Prop :=
  0 < a.width ∧ a.width ≤ 4096 ∧ 0 < a.height ∧ a.height ≤ 4096

instance (a : Locals) : Decidable (validResolution a) := by
  unfold validResolution; infer_instance

/-- The output path `main` hands to the driver, lines 165-168. -/
def outputPath (a : Locals) : String :=
  if a.testOutput = "" then a.testName ++ "_output.bmp" else a.testOutput

/-- The driver `main` constructs from the locals, line 176. -/
def driverOf (a : Locals) : TestDriver :=
  ⟨a.baseDir, a.testName, outputPath a, a.width, a.height, a.tiled⟩

/-- A world whose media directory is missing: every scene constructor that is given a
base directory raises an `IOException`; nothing else fails. -/
def missingMediaWorld : World where
  StringToInt := quietWorld.StringToInt
  CreateTestScene n b :=
    match b with
    | none => .ok ⟨⟨1, 1, 1, 1⟩, n⟩
    | some _ => .error (.IOException "Cannot open file.")
  fault _ := none
  saveFault := none
  elapsed i := (i : ℚ) + 2

/-- A world whose renderer raises in `Draw` of the second timed pass (operation 7);
nothing else fails. -/
def faultyWorld : World where
  StringToInt := quietWorld.StringToInt
  CreateTestScene n _ := .ok ⟨⟨1, 1, 1, 1⟩, n⟩
  fault k := if k = 7 then some (.Exception "Renderer failure.") else none
  saveFault := none
  elapsed i := (i : ℚ) + 2

/-- The locals after `TestDriver sibenik`. -/
def sibenikLocals : Locals := ⟨1024, 768, "sibenik", "", "./Media", false, 2⟩

/-- The locals after `TestDriver triangle`. -/
def triangleLocals : Locals := ⟨1024, 768, "triangle", "", "./Media", false, 2⟩

/-- The locals after `TestDriver doesnotexist`. -/
def unknownLocals : Locals := ⟨1024, 768, "doesnotexist", "", "./Media", false, 2⟩

/-- `DestroyRenderer` occurs exactly once in the trace, and no call that uses the
renderer follows it. -/
def destroyedOnceAtEnd (t : List Event) : Prop :=
  ∃ pre post, t = pre ++ [.DestroyRenderer] ++ post
    ∧ destroyCalls pre = [] ∧ destroyCalls post = []
    ∧ ∀ e ∈ post, usesRenderer e = false

/-- What the `try` block does once the driver is constructed: `Run`, the destructor,
the handler's output. -/
def afterConstruction (w : World) (d : TestDriver) : List Event :=
  (d.Run w).trace ++ [.DestroyRenderer] ++
    (match (d.Run w).result with
      | .ok _ => []
      | .error x => catchEvents x)

/-- The variables the four options set, and the backend flag, are the same in both
locals. -/
def sameOptionVars (a a2 : Locals) : Prop :=
  a2.width = a.width ∧ a2.height = a.height ∧ a2.testOutput = a.testOutput
    ∧ a2.baseDir = a.baseDir ∧ a2.tiled = a.tiled

/-- The argument `o` at the end of the argument list `pre ++ [o]` is ignored: the
command line ends as it does for `pre`, in `exit(0)` or with the same width,
height, output path, media directory and backend flag. -/
def lastArgumentIgnored (S : String → Int) (pre : List String) (o : String) : Prop :=
  (parseArgs S pre = .usageExit ∧ parseArgs S (pre ++ [o]) = .usageExit)
  ∨ ∃ a a2, parseArgs S pre = .parsed a ∧ parseArgs S (pre ++ [o]) = .parsed a2
      ∧ sameOptionVars a a2

/-- The argument `o` at the end of the argument list `pre ++ [o]` is consumed as the
value of the option `p` before it: compared with `pre`, the variable of `p` is set
from `o` and nothing else changes. -/
def lastArgumentConsumed (S : String → Int) (pre : List String) (o : String) : Prop :=
  ∃ p a a2, 2 ≤ pre.length ∧ pre.getLast? = some p ∧ isValueOption p
    ∧ parseArgs S pre = .parsed a ∧ parseArgs S (pre ++ [o]) = .parsed a2
    ∧ a2.testOutput = (if p = "-o" then o else a.testOutput)
    ∧ a2.width = (if p = "-w" then S o else a.width)
    ∧ a2.height = (if p = "-h" then S o else a.height)
    ∧ a2.baseDir = (if p = "-mediadir" then o else a.baseDir)
    ∧ a2.tiled = a.tiled ∧ a2.testName = a.testName

/-! ## Facts about sequencing, passes and the timed loop -/

theorem Outcome.bind_ok {α β : Type} (t : List Event) (a : α) (f : α → Outcome β) :
    ((⟨t, .ok a⟩ : Outcome α) >>= f) = ⟨t ++ (f a).trace, (f a).result⟩ := rfl

theorem Outcome.bind_error {α β : Type} (t : List Event) (e : Exn) (f : α → Outcome β) :
    ((⟨t, .error e⟩ : Outcome α) >>= f) = ⟨t, .error e⟩ := rfl

theorem Outcome.pure_def {α : Type} (a : α) : (pure a : Outcome α) = ⟨[], .ok a⟩ := rfl

theorem renderPass_ok (w : World) (hf : ∀ k, w.fault k = none) (p : Nat) (color : Vec4)
    (scene : TestScene) : renderPass w p color scene = ⟨passEvents color scene, .ok ()⟩ := by
  simp [renderPass, hf, call, passEvents, Outcome.bind_ok]

theorem timedLoop_ok (w : World) (hf : ∀ k, w.fault k = none) (scene : TestScene) :
    ∀ (remaining i : Nat) (minTime : ℚ),
      timedLoop w scene remaining i minTime =
        ⟨(List.replicate remaining (timedPassEvents scene)).flatten,
          .ok (runningMin w remaining i minTime)⟩ := by
  intro remaining
  induction remaining with
  | zero => intro i m; simp [timedLoop, runningMin, Outcome.pure_def]
  | succ n ih =>
    intro i m
    simp [timedLoop, runningMin, renderPass_ok w hf, ih, emit, Outcome.bind_ok,
      List.replicate_succ, timedPassEvents]

theorem Run_trace_ok (w : World) (d : TestDriver) (n : Nat) (b : Option String)
    (scene : TestScene) (hsel : d.selectScene = some (n, b))
    (hscene : w.CreateTestScene n b = .ok scene) (hf : ∀ k, w.fault k = none) :
    (d.Run w).trace = runEvents w d n b scene := by
  simp [TestDriver.Run, hsel, hscene, callWith, emit, renderPass_ok w hf, timedLoop_ok w hf,
    Outcome.bind_ok, runEvents, runPrefixEvents]
  cases w.saveFault <;> simp [call]

/-- Every event of a sequence satisfies `P` when the events of both parts do. -/

theorem Outcome.forall_bind {α β : Type} (P : Event → Prop) (m : Outcome α) (f : α → Outcome β)
    (hm : ∀ e ∈ m.trace, P e) (hf : ∀ a, ∀ e ∈ (f a).trace, P e) :
    ∀ e ∈ (m >>= f).trace, P e := by
  intro e he
  change e ∈ (Outcome.bind m f).trace at he
  unfold Outcome.bind at he
  cases hr : m.result with
  | error x => rw [hr] at he; exact hm e he
  | ok a =>
    rw [hr] at he
    rcases List.mem_append.1 he with h | h
    · exact hm e h
    · exact hf a e h

theorem call_trace (e : Event) (x : Option Exn) : (call e x).trace = [e] := by
  cases x <;> rfl

/-- Whatever the faults, a pass issues nothing but its own three operations. -/

theorem renderPass_subset (w : World) (p : Nat) (color : Vec4) (scene : TestScene) :
    ∀ e ∈ (renderPass w p color scene).trace, e ∈ passEvents color scene := by
  unfold renderPass
  apply Outcome.forall_bind
  · simp [call_trace, passEvents]
  · intro _
    apply Outcome.forall_bind
    · simp [call_trace, passEvents]
    · intro _; simp [call_trace, passEvents]

/-- Whatever the faults, the timed loop issues nothing but timed-pass events. -/

theorem timedLoop_subset (w : World) (scene : TestScene) :
    ∀ (remaining i : Nat) (minTime : ℚ),
      ∀ e ∈ (timedLoop w scene remaining i minTime).trace, e ∈ timedPassEvents scene := by
  intro remaining
  induction remaining with
  | zero => intro i m e he; simp [timedLoop, Outcome.pure_def] at he
  | succ n ih =>
    intro i m
    unfold timedLoop
    apply Outcome.forall_bind
    · simp [emit, timedPassEvents]
    · intro _
      apply Outcome.forall_bind
      · intro e he
        have := renderPass_subset w (i + 1) scene.ClearColor scene e he
        simp [timedPassEvents, passEvents] at this ⊢
        tauto
      · intro _
        apply Outcome.forall_bind
        · simp [emit, timedPassEvents]
        · intro _; exact ih _ _

theorem selectScene_of_mem (d : TestDriver) (h : d.testName ∈ sceneNames) :
    ∃ n b, d.selectScene = some (n, b) := by
  simp only [sceneNames, List.mem_cons, List.mem_singleton, List.not_mem_nil, or_false] at h
  rcases h with h | h | h | h | h | h | h | h <;> simp [TestDriver.selectScene, h]

theorem selectScene_of_not_mem (d : TestDriver) (h : d.testName ∉ sceneNames) :
    d.selectScene = none := by
  simp only [sceneNames, List.mem_cons, List.mem_singleton, List.not_mem_nil, or_false,
    not_or] at h
  simp [TestDriver.selectScene, h]

/-- The rendering part of `TestDriver::Run`, lines 71-93, as one fragment. -/
theorem Run_of_scene (w : World) (d : TestDriver) (n : Nat) (b : Option String)
    (scene : TestScene) (hsel : d.selectScene = some (n, b))
    (hc : w.CreateTestScene n b = .ok scene) :
    d.Run w =
      ((⟨[.printf "Loading scene...\n", .CreateTestScene n b,
          .printf ("Rendering scene: " ++ d.testName ++ " (" ++ toString d.Width ++ "x"
            ++ toString d.Height ++ ")\n")], .ok ()⟩ : Outcome Unit) >>= fun _ => do
        renderPass w 0 ⟨0, 0, 0, 0⟩ scene
        let minTime ← timedLoop w scene frameCount 0 minTimeInit
        emit (.printfFrameTime (1000 * minTime))
        call (.SaveColorBuffer d.outputFileName) w.saveFault) := by
  simp only [TestDriver.Run, hsel, emit, callWith, Outcome.bind_ok, hc]
  simp

/-- The events after the scene constructor returned, whatever the faults. -/
theorem render_events (w : World) (d : TestDriver) (scene : TestScene) :
    ∀ e ∈ (do
        renderPass w 0 ⟨0, 0, 0, 0⟩ scene
        let minTime ← timedLoop w scene frameCount 0 minTimeInit
        emit (.printfFrameTime (1000 * minTime))
        call (.SaveColorBuffer d.outputFileName) w.saveFault : Outcome Unit).trace,
      afterSceneEvent d scene e := by
  apply Outcome.forall_bind
  · intro e h; exact Or.inr (Or.inl (renderPass_subset w 0 _ scene e h))
  · intro _
    apply Outcome.forall_bind
    · intro e h; exact Or.inr (Or.inr (Or.inl (timedLoop_subset w scene _ _ _ e h)))
    · intro m
      apply Outcome.forall_bind
      · intro e h; exact Or.inr (Or.inr (Or.inr (Or.inl ⟨_, by simpa [emit] using h⟩)))
      · intro _ e h
        rw [call_trace] at h
        exact Or.inr (Or.inr (Or.inr (Or.inr (by simpa using h))))

/-- Whatever the faults, a run that selects constructor `n` prints the loading line,
calls that constructor, and, when it returned a scene, goes on with events of the
rendering part only. -/
theorem Run_shape (w : World) (d : TestDriver) (n : Nat) (b : Option String)
    (hsel : d.selectScene = some (n, b)) :
    ∃ rest, (d.Run w).trace = [.printf "Loading scene...\n", .CreateTestScene n b] ++ rest
      ∧ (∀ x, w.CreateTestScene n b = .error x → rest = [])
      ∧ ∀ scene, w.CreateTestScene n b = .ok scene → ∀ e ∈ rest, afterSceneEvent d scene e := by
  cases hc : w.CreateTestScene n b with
  | error x =>
    refine ⟨[], ?_, fun _ _ => rfl, fun _ h => by cases h⟩
    simp [TestDriver.Run, hsel, hc, emit, callWith, Outcome.bind_ok, Outcome.bind_error]
  | ok scene =>
    rw [Run_of_scene w d n b scene hsel hc, Outcome.bind_ok]
    refine ⟨_ :: _, rfl, fun _ h => (by cases h), ?_⟩
    intro sc hsc e he
    cases hsc
    rcases List.mem_cons.1 he with h | h
    · exact Or.inl h
    · exact render_events w d scene e h

/-- Whatever the faults, the one scene-constructor call of a run is the selected one. -/
theorem sceneCalls_Run (w : World) (d : TestDriver) (n : Nat) (b : Option String)
    (hsel : d.selectScene = some (n, b)) :
    sceneCalls (d.Run w).trace = [.CreateTestScene n b] := by
  obtain ⟨rest, htrace, herr, hok⟩ := Run_shape w d n b hsel
  have hrest : sceneCalls rest = [] := by
    cases hc : w.CreateTestScene n b with
    | error x => rw [herr x hc]; rfl
    | ok scene =>
      unfold sceneCalls
      rw [List.filter_eq_nil_iff]
      intro e he
      rcases hok scene hc e he with h | h | h | ⟨ms, h⟩ | h
      · simp [h]
      · simp only [passEvents, List.mem_cons, List.mem_singleton, List.not_mem_nil,
          or_false] at h
        rcases h with h | h | h <;> simp [h]
      · simp only [timedPassEvents, passEvents, List.mem_cons, List.mem_singleton,
          List.not_mem_nil, or_false, List.cons_append, List.nil_append] at h
        rcases h with h | h | h | h | h <;> simp [h]
      · simp [h]
      · simp [h]
  rw [htrace]
  unfold sceneCalls at hrest ⊢
  rw [List.filter_append, hrest]
  simp

/-! ## The running minimum -/

theorem minStep_le_right (e m : ℚ) : minStep e m ≤ m := by
  unfold minStep; split_ifs with h
  · exact le_of_lt h
  · exact le_refl m

theorem minStep_le_left (e m : ℚ) : minStep e m ≤ e := by
  unfold minStep; split_ifs with h
  · exact le_refl e
  · exact not_lt.1 h

theorem minStep_eq_min (e m : ℚ) : minStep e m = min e m := by
  unfold minStep; split_ifs with h
  · exact (min_eq_left (le_of_lt h)).symm
  · exact (min_eq_right (not_lt.1 h)).symm

/-- One more pass: the minimum after `remaining + 1` samples is `minStep` of the last
sample and the minimum after `remaining` samples. -/
theorem runningMin_succ (w : World) :
    ∀ (remaining i : Nat) (m : ℚ),
      runningMin w (remaining + 1) i m
        = minStep (w.elapsed (i + remaining)) (runningMin w remaining i m) := by
  intro remaining
  induction remaining with
  | zero => intro i m; simp [runningMin]
  | succ n ih =>
    intro i m
    rw [runningMin, ih (i + 1) (minStep (w.elapsed i) m)]
    have : i + 1 + n = i + (n + 1) := by omega
    rw [this]
    rfl

theorem runningMin_le_init (w : World) (remaining i : Nat) (m : ℚ) :
    runningMin w remaining i m ≤ m := by
  induction remaining with
  | zero => exact le_refl m
  | succ n ih => rw [runningMin_succ]; exact le_trans (minStep_le_right _ _) ih

theorem runningMin_le_sample (w : World) (remaining i : Nat) (m : ℚ) :
    ∀ j, j < remaining → runningMin w remaining i m ≤ w.elapsed (i + j) := by
  induction remaining with
  | zero => intro j hj; omega
  | succ n ih =>
    intro j hj
    rw [runningMin_succ]
    rcases Nat.lt_succ_iff_lt_or_eq.1 hj with h | h
    · exact le_trans (minStep_le_right _ _) (ih j h)
    · subst h; exact minStep_le_left _ _

theorem runningMin_lt_iff (w : World) (remaining i : Nat) (m : ℚ) :
    runningMin w remaining i m < m ↔ ∃ j, j < remaining ∧ w.elapsed (i + j) < m := by
  induction remaining with
  | zero => simp [runningMin]
  | succ n ih =>
    rw [runningMin_succ, minStep_eq_min, min_lt_iff, ih]
    constructor
    · rintro (h | ⟨j, hj, h⟩)
      · exact ⟨n, Nat.lt_succ_self n, h⟩
      · exact ⟨j, Nat.lt_succ_of_lt hj, h⟩
    · rintro ⟨j, hj, h⟩
      rcases Nat.lt_succ_iff_lt_or_eq.1 hj with h1 | h1
      · exact Or.inr ⟨j, h1, h⟩
      · subst h1; exact Or.inl h

theorem runningMin_nonneg (w : World) (remaining i : Nat) (m : ℚ) (hm : 0 ≤ m)
    (h : ∀ j, j < remaining → 0 ≤ w.elapsed (i + j)) : 0 ≤ runningMin w remaining i m := by
  induction remaining with
  | zero => exact hm
  | succ n ih =>
    rw [runningMin_succ, minStep_eq_min]
    exact le_min (h n (Nat.lt_succ_self n)) (ih fun j hj => h j (Nat.lt_succ_of_lt hj))

/-- In a fault-free run that finds its scene, exactly one frame time is printed. -/
theorem frameTime_mem_Run (w : World) (d : TestDriver) (n : Nat) (b : Option String)
    (scene : TestScene) (hsel : d.selectScene = some (n, b))
    (hscene : w.CreateTestScene n b = .ok scene) (hf : ∀ k, w.fault k = none) (v : ℚ) :
    .printfFrameTime v ∈ (d.Run w).trace ↔ v = 1000 * runningMin w frameCount 0 minTimeInit := by
  rw [Run_trace_ok w d n b scene hsel hscene hf]
  simp [runEvents, runPrefixEvents, passEvents, timedPassEvents, frameCount, List.replicate]

/-! ## The command-line loop -/

/-- The flag step at a readable position: a help token ends the process, anything else
advances `ptr` by one and changes nothing but `tiled`. -/
theorem flagStep_spec (argv : List String) (a : Locals) (s : String)
    (hs : argv[a.ptr]? = some s) :
    (isHelpToken s ∧ flagStep argv a = .usageExit)
    ∨ (¬ isHelpToken s ∧
        flagStep argv a = .parsed { a with tiled := a.tiled || decide (s = "-tiled"),
                                           ptr := a.ptr + 1 }) := by
  unfold flagStep
  rw [hs]
  by_cases ht : s = "-tiled"
  · right
    subst ht
    exact ⟨by decide, by simp⟩
  · by_cases hh : isHelpToken s
    · left
      refine ⟨hh, ?_⟩
      have hh2 : s = "-help" ∨ s = "--help" ∨ s = "-?" := hh
      simp [ht, hh2]
    · right
      refine ⟨hh, ?_⟩
      have hh2 : ¬ (s = "-help" ∨ s = "--help" ∨ s = "-?") := hh
      simp [ht, hh2]

/-- The option step inside the argument list: it never reads past the end, and either
leaves the locals alone or consumes the value after one of the four options. -/
theorem optionStep_spec (S : String → Int) (argv : List String) (a : Locals)
    (h : a.ptr < argv.length) :
    optionStep S argv a = .ok a
    ∨ ∃ o v a1, argv[a.ptr]? = some o ∧ argv[a.ptr + 1]? = some v ∧ isValueOption o
        ∧ optionStep S argv a = .ok a1
        ∧ a1.ptr = a.ptr + 1 ∧ a1.testName = a.testName ∧ a1.tiled = a.tiled
        ∧ a1.testOutput = (if o = "-o" then v else a.testOutput)
        ∧ a1.width = (if o = "-w" then S v else a.width)
        ∧ a1.height = (if o = "-h" then S v else a.height)
        ∧ a1.baseDir = (if o = "-mediadir" then v else a.baseDir) := by
  unfold optionStep
  by_cases hlt : (a.ptr : Int) < (argv.length : Int) - 1
  · have h1 : a.ptr + 1 < argv.length := by omega
    have hs : argv[a.ptr]? = some argv[a.ptr] := List.getElem?_eq_getElem h
    have hv : argv[a.ptr + 1]? = some argv[a.ptr + 1] := List.getElem?_eq_getElem h1
    rw [if_pos hlt, hs, hv]
    by_cases ho : argv[a.ptr] = "-o"
    · right
      refine ⟨_, _, _, rfl, rfl, Or.inl ho, by dsimp only; rw [if_pos ho], ?_⟩
      simp [ho]
    · by_cases hw : argv[a.ptr] = "-w"
      · right
        refine ⟨_, _, _, rfl, rfl, Or.inr (Or.inl hw), by dsimp only; rw [if_neg ho, if_pos hw], ?_⟩
        simp [hw]
      · by_cases hh : argv[a.ptr] = "-h"
        · right
          refine ⟨_, _, _, rfl, rfl, Or.inr (Or.inr (Or.inl hh)),
            by dsimp only; rw [if_neg ho, if_neg hw, if_pos hh], ?_⟩
          simp [hh]
        · by_cases hm : argv[a.ptr] = "-mediadir"
          · right
            refine ⟨_, _, _, rfl, rfl, Or.inr (Or.inr (Or.inr hm)),
              by dsimp only; rw [if_neg ho, if_neg hw, if_neg hh, if_pos hm], ?_⟩
            simp [hm]
          · left
            simp [ho, hw, hh, hm]
  · left
    rw [if_neg hlt]

theorem not_help_of_valueOption (o : String) (h : isValueOption o) : ¬ isHelpToken o := by
  rcases h with rfl | rfl | rfl | rfl <;> decide

/-- One iteration inside the argument list: the option step succeeds, the flag step
reads inside the list, and the iteration ends the process exactly when the token
the flag step reads is a help token. -/
theorem loopBody_spec (S : String → Int) (argv : List String) (a : Locals)
    (h : a.ptr < argv.length) :
    ∃ a1 s, optionStep S argv a = .ok a1 ∧ argv[a1.ptr]? = some s
      ∧ ((isHelpToken s ∧ loopBody S argv a = .usageExit)
        ∨ (¬ isHelpToken s ∧ loopBody S argv a =
            .parsed { a1 with tiled := a1.tiled || decide (s = "-tiled"),
                              ptr := a1.ptr + 1 })) := by
  rcases optionStep_spec S argv a h with hopt | ⟨o, v, a1, _, hv, _, hopt, hptr, _⟩
  · refine ⟨a, argv[a.ptr], hopt, List.getElem?_eq_getElem h, ?_⟩
    simp only [loopBody, hopt]
    exact flagStep_spec argv a _ (List.getElem?_eq_getElem h)
  · have hv1 : argv[a1.ptr]? = some v := by rw [hptr]; exact hv
    refine ⟨a1, v, hopt, hv1, ?_⟩
    simp only [loopBody, hopt]
    exact flagStep_spec argv a1 v hv1

/-- What the option step keeps: `ptr` moves by at most one, `testName` and `tiled`
stay. -/
theorem optionStep_keeps (S : String → Int) (argv : List String) (a a1 : Locals)
    (h : a.ptr < argv.length) (hopt : optionStep S argv a = .ok a1) :
    a.ptr ≤ a1.ptr ∧ a1.ptr ≤ a.ptr + 1 ∧ a1.testName = a.testName ∧ a1.tiled = a.tiled := by
  rcases optionStep_spec S argv a h with h1 | ⟨o, v, a2, _, _, _, h1, hptr, hname, htiled, _⟩
  · rw [h1] at hopt; cases hopt; exact ⟨le_refl _, Nat.le_succ _, rfl, rfl⟩
  · rw [h1] at hopt; cases hopt; exact ⟨by omega, by omega, hname, htiled⟩

/-- A help token at or after `ptr` ends the process with the usage text. -/
theorem parseLoop_help (S : String → Int) (argv : List String) :
    ∀ (fuel : Nat) (a : Locals), argv.length ≤ a.ptr + fuel →
      (∃ i s, a.ptr ≤ i ∧ argv[i]? = some s ∧ isHelpToken s) →
      parseLoop S argv fuel a = .usageExit := by
  intro fuel
  induction fuel with
  | zero =>
    rintro a hfuel ⟨i, s, hi, hs, _⟩
    have := (List.getElem?_eq_some_iff.1 hs).1
    omega
  | succ n ih =>
    rintro a hfuel ⟨i, s, hi, hs, hhelp⟩
    have hilt : i < argv.length := (List.getElem?_eq_some_iff.1 hs).1
    have hlt : a.ptr < argv.length := by omega
    unfold parseLoop
    rw [if_pos hlt]
    obtain ⟨a1, t, hopt, ht, hbody⟩ := loopBody_spec S argv a hlt
    rcases hbody with ⟨_, hbody⟩ | ⟨hnot, hbody⟩
    · rw [hbody]
    · rw [hbody]
      have hne1 : a1.ptr ≠ i := by
        intro h
        rw [h, hs] at ht
        exact hnot (Option.some.inj ht ▸ hhelp)
      have hle : a1.ptr ≤ i := by
        rcases optionStep_spec S argv a hlt with h1 | ⟨o, v, a2, ho, _, hval, h1, hptr, _⟩
        · rw [h1] at hopt; cases hopt; exact hi
        · rw [h1] at hopt; cases hopt
          have hne : a.ptr ≠ i := by
            intro h
            rw [h, hs] at ho
            exact not_help_of_valueOption o hval (Option.some.inj ho ▸ hhelp)
          omega
      have hup := (optionStep_keeps S argv a a1 hlt hopt).1
      refine ih _ ?_ ⟨i, s, ?_, hs, hhelp⟩
      · show argv.length ≤ a1.ptr + 1 + n
        omega
      · show a1.ptr + 1 ≤ i
        omega

/-- Without a help token at or after `ptr` the loop runs to the end of the list and
leaves `testName` as it was. -/
theorem parseLoop_parsed (S : String → Int) (argv : List String) :
    ∀ (fuel : Nat) (a : Locals), argv.length ≤ a.ptr + fuel →
      (∀ i s, a.ptr ≤ i → argv[i]? = some s → ¬ isHelpToken s) →
      ∃ a2, parseLoop S argv fuel a = .parsed a2 ∧ a2.testName = a.testName
        ∧ argv.length ≤ a2.ptr := by
  intro fuel
  induction fuel with
  | zero =>
    intro a hfuel _
    have hge : ¬ a.ptr < argv.length := by omega
    exact ⟨a, by simp [parseLoop, hge], rfl, by omega⟩
  | succ n ih =>
    intro a hfuel hno
    unfold parseLoop
    by_cases hlt : a.ptr < argv.length
    · rw [if_pos hlt]
      obtain ⟨a1, s, hopt, hs, hbody⟩ := loopBody_spec S argv a hlt
      obtain ⟨hle, _, hkeep, _⟩ := optionStep_keeps S argv a a1 hlt hopt
      rcases hbody with ⟨hhelp, _⟩ | ⟨_, hbody⟩
      · exact absurd hhelp (hno _ s hle hs)
      · rw [hbody]
        obtain ⟨a2, h2, hname, hend⟩ :=
          ih (Locals.mk a1.width a1.height a1.testName a1.testOutput a1.baseDir
              (a1.tiled || decide (s = "-tiled")) (a1.ptr + 1))
            (show argv.length ≤ a1.ptr + 1 + n by omega)
            (fun i t (hi : a1.ptr + 1 ≤ i) ht => hno i t (by omega) ht)
        exact ⟨a2, h2, hname.trans hkeep, hend⟩
    · rw [if_neg hlt]
      exact ⟨a, rfl, rfl, by omega⟩

/-! ## `main` -/

theorem construct_eq (Width Height : Int) (tiled : Bool) (test output baseDir : String) :
    TestDriver.construct Width Height tiled test output baseDir =
      ⟨[.TestDriver Width Height tiled test output baseDir, .FrameBuffer Width Height,
          if tiled then .CreateTiledRenderer else .CreateForwardNonTiledRenderer,
          .SetFrameBuffer],
        .ok ⟨baseDir, test, output, Width, Height, tiled⟩⟩ := by
  cases tiled <;> rfl

/-- The `try` block: prologue, the run, the destructor, then the handler's output. -/
theorem tryBlock_eq (w : World) (a : Locals) (testOutput : String) :
    tryBlock w a testOutput =
      mainPrologue a testOutput
        ++ (TestDriver.Run w ⟨a.baseDir, a.testName, testOutput, a.width, a.height, a.tiled⟩).trace
        ++ [.DestroyRenderer]
        ++ (match (TestDriver.Run w
              ⟨a.baseDir, a.testName, testOutput, a.width, a.height, a.tiled⟩).result with
            | .ok _ => []
            | .error x => catchEvents x) := by
  simp [tryBlock, construct_eq, mainPrologue, TestDriver.destroy]

/-- The `try` block starts with the banner and the driver's construction. -/
theorem tryBlock_prologue (w : World) (a : Locals) (testOutput : String) :
    ∃ rest, tryBlock w a testOutput = mainPrologue a testOutput ++ rest := by
  rw [tryBlock_eq]
  exact ⟨_, by rw [List.append_assoc, List.append_assoc]⟩

/-- The arguments after the binary name are the positions from 1 on. -/
theorem mem_tail_iff (argv : List String) (s : String) :
    s ∈ argv.tail ↔ ∃ i, 1 ≤ i ∧ argv[i]? = some s := by
  cases argv with
  | nil => simp
  | cons b rest =>
    rw [List.tail_cons, List.mem_iff_getElem?]
    constructor
    · rintro ⟨j, hj⟩
      exact ⟨j + 1, by omega, by simpa using hj⟩
    · rintro ⟨i, hi, h⟩
      obtain ⟨j, rfl⟩ : ∃ j, i = j + 1 := ⟨i - 1, by omega⟩
      exact ⟨j, by simpa using h⟩

/-- With a help token after the binary name the command line ends in `exit(0)`. -/
theorem parseArgs_help (S : String → Int) (argv : List String)
    (h : ∃ s ∈ argv.tail, isHelpToken s) : parseArgs S argv = .usageExit := by
  obtain ⟨s, hs, hhelp⟩ := h
  obtain ⟨i, hi, hget⟩ := (mem_tail_iff argv s).1 hs
  exact parseLoop_help S argv argv.length (initLocals argv) (by simp [initLocals])
    ⟨i, s, hi, hget, hhelp⟩

/-- Without a help token after the binary name the command line is read to its end;
`testName` is the value given to it before the loop. -/
theorem parseArgs_parsed (S : String → Int) (argv : List String)
    (h : ∀ s ∈ argv.tail, ¬ isHelpToken s) :
    ∃ a, parseArgs S argv = .parsed a ∧ a.testName = (initLocals argv).testName := by
  obtain ⟨a, ha, hname, _⟩ := parseLoop_parsed S argv argv.length (initLocals argv)
    (by simp [initLocals])
    (fun i s hi hs => h s ((mem_tail_iff argv s).2 ⟨i, hi, hs⟩))
  exact ⟨a, ha, hname⟩

/-- What `main` does once the command line is read. -/
theorem main_of_parsed (w : World) (argv : List String) (a : Locals)
    (h : parseArgs w.StringToInt argv = .parsed a) :
    main w argv =
      if a.width ≤ 0 ∨ a.width > 4096 ∨ a.height ≤ 0 ∨ a.height > 4096 then
        ⟨[.printf "Invalid resolution.\n"], some (-1)⟩
      else
        ⟨tryBlock w a (if a.testOutput = "" then a.testName ++ "_output.bmp" else a.testOutput),
          some 0⟩ := by
  simp only [main, h]

/-- The locals after the command line `s [-o p] [-w ws] [-h hs] [-mediadir d]`. -/
theorem parseArgs_options (S : String → Int) (binaryName s : String)
    (p ws hs d : Option String) (hscene : ¬ isFlagToken s)
    (hp : ∀ v ∈ p, v ≠ "-tiled" ∧ ¬ isHelpToken v)
    (hw : ∀ v ∈ ws, v ≠ "-tiled" ∧ ¬ isHelpToken v)
    (hh : ∀ v ∈ hs, v ≠ "-tiled" ∧ ¬ isHelpToken v)
    (hd : ∀ v ∈ d, v ≠ "-tiled" ∧ ¬ isHelpToken v) :
    parseArgs S (binaryName :: s :: (optionArgs "-o" p ++ optionArgs "-w" ws
        ++ optionArgs "-h" hs ++ optionArgs "-mediadir" d))
      = .parsed ⟨(ws.map S).getD 1024, (hs.map S).getD 768, s, p.getD "", d.getD "./Media",
          false, (binaryName :: s :: (optionArgs "-o" p ++ optionArgs "-w" ws
            ++ optionArgs "-h" hs ++ optionArgs "-mediadir" d)).length⟩ := by
  simp only [isFlagToken, isValueOption, isHelpToken, not_or] at hscene
  obtain ⟨⟨s1, s2, s3, s4⟩, s5, s6, s7, s8⟩ := hscene
  cases p <;> cases ws <;> cases hs <;> cases d <;>
    simp only [Option.mem_def, Option.some.injEq, forall_eq', isHelpToken, not_or, reduceCtorEq,
      false_implies, implies_true, ne_eq] at hp hw hh hd <;>
    simp [parseArgs, parseLoop, loopBody, optionStep, flagStep, initLocals, optionArgs, *]

/-! ## Invariants of the command-line loop -/

/-- An iteration that goes on either reads one token that is no help token and changes
nothing but `tiled` and `ptr`, or reads one of the four options and its value. -/
theorem loopBody_parsed (S : String → Int) (argv : List String) (a a2 : Locals)
    (h : a.ptr < argv.length) (hb : loopBody S argv a = .parsed a2) :
    (∃ t, argv[a.ptr]? = some t ∧ ¬ isHelpToken t
        ∧ a2.ptr = a.ptr + 1 ∧ a2.testName = a.testName
        ∧ a2.tiled = (a.tiled || decide (t = "-tiled"))
        ∧ a2.testOutput = a.testOutput ∧ a2.width = a.width ∧ a2.height = a.height
        ∧ a2.baseDir = a.baseDir)
    ∨ (∃ o v, argv[a.ptr]? = some o ∧ argv[a.ptr + 1]? = some v ∧ isValueOption o
        ∧ ¬ isHelpToken v
        ∧ a2.ptr = a.ptr + 2 ∧ a2.testName = a.testName
        ∧ a2.tiled = (a.tiled || decide (v = "-tiled"))
        ∧ a2.testOutput = (if o = "-o" then v else a.testOutput)
        ∧ a2.width = (if o = "-w" then S v else a.width)
        ∧ a2.height = (if o = "-h" then S v else a.height)
        ∧ a2.baseDir = (if o = "-mediadir" then v else a.baseDir)) := by
  rcases optionStep_spec S argv a h with
    hopt | ⟨o, v, a1, ho, hv, hval, hopt, hptr, hname, htiled, hout, hw, hh, hd⟩
  · left
    have ht : argv[a.ptr]? = some argv[a.ptr] := List.getElem?_eq_getElem h
    simp only [loopBody, hopt] at hb
    rcases flagStep_spec argv a _ ht with ⟨_, hflag⟩ | ⟨hnot, hflag⟩
    · rw [hflag] at hb; cases hb
    · rw [hflag] at hb
      cases hb
      exact ⟨_, ht, hnot, rfl, rfl, rfl, rfl, rfl, rfl, rfl⟩
  · right
    have hv1 : argv[a1.ptr]? = some v := by rw [hptr]; exact hv
    simp only [loopBody, hopt] at hb
    rcases flagStep_spec argv a1 v hv1 with ⟨_, hflag⟩ | ⟨hnot, hflag⟩
    · rw [hflag] at hb; cases hb
    · rw [hflag] at hb
      cases hb
      exact ⟨o, v, ho, hv, hval, hnot, by simp only [hptr], hname, by simp only [htiled],
        hout, hw, hh, hd⟩

/-- A property of the locals kept by every iteration holds when the loop ends. -/
theorem parseLoop_invariant (S : String → Int) (argv : List String) (P : Locals → Prop)
    (hstep : ∀ a a2, a.ptr < argv.length → P a → loopBody S argv a = .parsed a2 → P a2) :
    ∀ (fuel : Nat) (a a2 : Locals), P a → parseLoop S argv fuel a = .parsed a2 → P a2 := by
  intro fuel
  induction fuel with
  | zero =>
    intro a a2 hP h
    unfold parseLoop at h
    split_ifs at h
    cases h
    exact hP
  | succ n ih =>
    intro a a2 hP h
    unfold parseLoop at h
    by_cases hlt : a.ptr < argv.length
    · rw [if_pos hlt] at h
      cases hb : loopBody S argv a with
      | parsed a1 =>
        rw [hb] at h
        exact ih a1 a2 (hstep a a1 hlt hP hb) h
      | usageExit => rw [hb] at h; cases h
      | badAccess i => rw [hb] at h; cases h
      | outOfFuel => rw [hb] at h; cases h
    · rw [if_neg hlt] at h
      cases h
      exact hP

/-- The loop ends only when `ptr` has reached `argc`. -/
theorem parseLoop_ptr_end (S : String → Int) (argv : List String) :
    ∀ (fuel : Nat) (a a2 : Locals), parseLoop S argv fuel a = .parsed a2 →
      argv.length ≤ a2.ptr := by
  intro fuel
  induction fuel with
  | zero =>
    intro a a2 h
    unfold parseLoop at h
    split_ifs at h with hlt
    cases h
    omega
  | succ n ih =>
    intro a a2 h
    unfold parseLoop at h
    by_cases hlt : a.ptr < argv.length
    · rw [if_pos hlt] at h
      cases hb : loopBody S argv a with
      | parsed a1 => rw [hb] at h; exact ih a1 a2 h
      | usageExit => rw [hb] at h; cases h
      | badAccess i => rw [hb] at h; cases h
      | outOfFuel => rw [hb] at h; cases h
    · rw [if_neg hlt] at h
      cases h
      omega

theorem valueOption_ne_tiled (o : String) (h : isValueOption o) : o ≠ "-tiled" := by
  rcases h with rfl | rfl | rfl | rfl <;> decide

/-- Without `-o` after the binary name the loop leaves `testOutput` empty. -/
theorem parseArgs_testOutput_empty (S : String → Int) (argv : List String) (a : Locals)
    (hno : "-o" ∉ argv.tail) (h : parseArgs S argv = .parsed a) : a.testOutput = "" := by
  have key := parseLoop_invariant S argv (fun a => 1 ≤ a.ptr ∧ a.testOutput = "") (by
    intro a a2 hlt hP hb
    obtain ⟨hp1, hP⟩ := hP
    rcases loopBody_parsed S argv a a2 hlt hb with
      ⟨t, _, _, hptr, _, _, hout, _⟩ | ⟨o, v, ho, _, _, _, hptr, _, _, hout, _⟩
    · exact ⟨by omega, hout.trans hP⟩
    · have hne : o ≠ "-o" := by
        rintro rfl
        exact hno ((mem_tail_iff argv "-o").2 ⟨a.ptr, hp1, ho⟩)
      rw [if_neg hne] at hout
      exact ⟨by omega, hout.trans hP⟩)
    argv.length (initLocals argv) a ⟨le_refl 1, rfl⟩ h
  exact key.2

/-- When the loop ends, `tiled` is set exactly when some argument after the binary
name is `-tiled`. -/
theorem parseArgs_tiled_iff (S : String → Int) (argv : List String) (a : Locals)
    (h : parseArgs S argv = .parsed a) : a.tiled = true ↔ "-tiled" ∈ argv.tail := by
  have key := parseLoop_invariant S argv
    (fun a => 1 ≤ a.ptr
      ∧ (a.tiled = true ↔ ∃ i, 1 ≤ i ∧ i < a.ptr ∧ argv[i]? = some "-tiled")) (by
    intro a a2 hlt hP hb
    obtain ⟨hp1, hP⟩ := hP
    rcases loopBody_parsed S argv a a2 hlt hb with
      ⟨t, ht, _, hptr, _, htiled, _⟩ | ⟨o, v, ho, hv, hval, _, hptr, _, htiled, _⟩
    · refine ⟨by omega, ?_⟩
      rw [htiled, Bool.or_eq_true, decide_eq_true_eq, hP, hptr]
      constructor
      · rintro (⟨i, h1, h2, h3⟩ | rfl)
        · exact ⟨i, h1, by omega, h3⟩
        · exact ⟨a.ptr, hp1, by omega, ht⟩
      · rintro ⟨i, h1, h2, h3⟩
        rcases Nat.lt_succ_iff_lt_or_eq.1 h2 with h4 | rfl
        · exact Or.inl ⟨i, h1, h4, h3⟩
        · rw [ht] at h3
          exact Or.inr (Option.some.inj h3)
    · refine ⟨by omega, ?_⟩
      rw [htiled, Bool.or_eq_true, decide_eq_true_eq, hP, hptr]
      constructor
      · rintro (⟨i, h1, h2, h3⟩ | rfl)
        · exact ⟨i, h1, by omega, h3⟩
        · exact ⟨a.ptr + 1, by omega, by omega, hv⟩
      · rintro ⟨i, h1, h2, h3⟩
        by_cases h4 : i < a.ptr
        · exact Or.inl ⟨i, h1, h4, h3⟩
        · by_cases h5 : i = a.ptr
          · subst h5
            rw [ho] at h3
            exact absurd (Option.some.inj h3) (valueOption_ne_tiled o hval)
          · have h6 : i = a.ptr + 1 := by omega
            subst h6
            rw [hv] at h3
            exact Or.inr (Option.some.inj h3))
    argv.length (initLocals argv) a
    ⟨le_refl 1, by
      simp only [initLocals]
      constructor
      · intro h; cases h
      · rintro ⟨i, h1, h2, _⟩; omega⟩ h
  have hend := parseLoop_ptr_end S argv argv.length (initLocals argv) a h
  rw [key.2, mem_tail_iff]
  constructor
  · rintro ⟨i, h1, _, h3⟩; exact ⟨i, h1, h3⟩
  · rintro ⟨i, h1, h3⟩
    have := (List.getElem?_eq_some_iff.1 h3).1
    exact ⟨i, h1, by omega, h3⟩

/-! ## The whole of `main` and `Run`, whatever the collaborators do -/

theorem afterSceneEvent_isRunEvent (d : TestDriver) (scene : TestScene) (e : Event)
    (h : afterSceneEvent d scene e) : isRunEvent e = true := by
  rcases h with h | h | h | ⟨ms, h⟩ | h
  · rw [h]; rfl
  · simp only [passEvents, List.mem_cons, List.mem_singleton, List.not_mem_nil,
      or_false] at h
    rcases h with h | h | h <;> rw [h] <;> rfl
  · simp only [timedPassEvents, passEvents, List.mem_cons, List.mem_singleton,
      List.not_mem_nil, or_false, List.cons_append, List.nil_append] at h
    rcases h with h | h | h | h | h <;> rw [h] <;> rfl
  · rw [h]; rfl
  · rw [h]; rfl

/-- `Run` issues no renderer-factory call, no `SetFrameBuffer`, no `DestroyRenderer`
and no constructor call of the driver. -/
theorem Run_vocabulary (w : World) (d : TestDriver) :
    ∀ e ∈ (d.Run w).trace, isRunEvent e = true := by
  cases hsel : d.selectScene with
  | none =>
    intro e he
    simp [TestDriver.Run, hsel, emit, Outcome.bind_ok] at he
    rcases he with h | h <;> rw [h] <;> rfl
  | some nb =>
    obtain ⟨n, b⟩ := nb
    obtain ⟨rest, htrace, herr, hok⟩ := Run_shape w d n b hsel
    intro e he
    rw [htrace] at he
    rcases List.mem_append.1 he with h | h
    · simp only [List.mem_cons, List.mem_singleton, List.not_mem_nil, or_false] at h
      rcases h with h | h <;> rw [h] <;> rfl
    · cases hc : w.CreateTestScene n b with
      | error x => rw [herr x hc] at h; cases h
      | ok scene => exact afterSceneEvent_isRunEvent d scene e (hok scene hc e h)

/-- What `main` does once the command line is read and the resolution is valid: the
prologue, the run of the driver, its destructor, the handler's output; status 0. -/
theorem main_of_valid (w : World) (argv : List String) (a : Locals)
    (h : parseArgs w.StringToInt argv = .parsed a) (hv : validResolution a) :
    main w argv =
      ⟨mainPrologue a (outputPath a) ++ ((driverOf a).Run w).trace ++ [.DestroyRenderer]
        ++ (match ((driverOf a).Run w).result with
            | .ok _ => []
            | .error x => catchEvents x), some 0⟩ := by
  have hbad : ¬ (a.width ≤ 0 ∨ a.width > 4096 ∨ a.height ≤ 0 ∨ a.height > 4096) := by
    unfold validResolution at hv; omega
  rw [main_of_parsed w argv a h, if_neg hbad, tryBlock_eq]
  rfl

theorem catchEvents_printf (x : Exn) : ∀ e ∈ catchEvents x, ∃ text, e = .printf text := by
  intro e he
  cases x with
  | IOException m =>
    simp only [catchEvents, List.mem_cons, List.mem_singleton, List.not_mem_nil, or_false] at he
    rcases he with h | h <;> exact ⟨_, h⟩
  | Exception m =>
    simp only [catchEvents, List.mem_singleton] at he
    exact ⟨_, he⟩

/-- What follows the destructor in the `try` block is handler output only. -/
theorem handler_printf (r : Except Exn Unit) :
    ∀ e : Event, e ∈ (match r with
        | .ok _ => ([] : List Event)
        | .error x => catchEvents x) → ∃ text, e = .printf text := by
  cases r with
  | ok _ => intro e he; cases he
  | error x => exact catchEvents_printf x

theorem rendererCreations_Run (w : World) (d : TestDriver) :
    rendererCreations (d.Run w).trace = [] := by
  unfold rendererCreations
  rw [List.filter_eq_nil_iff]
  intro e he
  have := Run_vocabulary w d e he
  cases e <;> simp_all [isRunEvent]

theorem rendererCreations_handler (r : Except Exn Unit) :
    rendererCreations (match r with
        | .ok _ => ([] : List Event)
        | .error x => catchEvents x) = [] := by
  unfold rendererCreations
  rw [List.filter_eq_nil_iff]
  intro e he
  obtain ⟨text, rfl⟩ := handler_printf r e he
  simp

theorem destroyCalls_Run (w : World) (d : TestDriver) : destroyCalls (d.Run w).trace = [] := by
  unfold destroyCalls
  rw [List.filter_eq_nil_iff]
  intro e he
  have := Run_vocabulary w d e he
  cases e <;> simp_all [isRunEvent]

theorem destroyCalls_handler (r : Except Exn Unit) :
    destroyCalls (match r with
        | .ok _ => ([] : List Event)
        | .error x => catchEvents x) = [] := by
  unfold destroyCalls
  rw [List.filter_eq_nil_iff]
  intro e he
  obtain ⟨text, rfl⟩ := handler_printf r e he
  simp

/-! ## Runs that fail -/

theorem Outcome.bind_of_error {α β : Type} (m : Outcome α) (f : α → Outcome β) (x : Exn)
    (h : m.result = .error x) : (m >>= f) = ⟨m.trace, .error x⟩ := by
  change Outcome.bind m f = _
  unfold Outcome.bind
  rw [h]

theorem Outcome.bind_of_ok {α β : Type} (m : Outcome α) (f : α → Outcome β) (a : α)
    (h : m.result = .ok a) : (m >>= f) = ⟨m.trace ++ (f a).trace, (f a).result⟩ := by
  change Outcome.bind m f = _
  unfold Outcome.bind
  rw [h]

theorem call_result_ok (e : Event) (x : Option Exn) (u : Unit)
    (h : (call e x).result = .ok u) : x = none := by
  cases x with
  | none => rfl
  | some ex => simp [call] at h

/-- A pass that ends normally met no fault in its three operations. -/
theorem renderPass_result_ok (w : World) (p : Nat) (color : Vec4) (scene : TestScene)
    (u : Unit) (h : (renderPass w p color scene).result = .ok u) :
    w.fault (3 * p) = none ∧ w.fault (3 * p + 1) = none ∧ w.fault (3 * p + 2) = none := by
  unfold renderPass at h
  cases h0 : w.fault (3 * p) with
  | some x => rw [h0] at h; simp [call, Outcome.bind_error] at h
  | none =>
    cases h1 : w.fault (3 * p + 1) with
    | some x => rw [h0, h1] at h; simp [call, Outcome.bind_error, Outcome.bind_ok] at h
    | none =>
      cases h2 : w.fault (3 * p + 2) with
      | some x => rw [h0, h1, h2] at h; simp [call, Outcome.bind_ok] at h
      | none => exact ⟨rfl, rfl, rfl⟩

/-- A timed loop that ends normally met no fault in any of its passes. -/
theorem timedLoop_result_ok (w : World) (scene : TestScene) :
    ∀ (remaining i : Nat) (minTime r : ℚ),
      (timedLoop w scene remaining i minTime).result = .ok r →
      ∀ k, 3 * (i + 1) ≤ k → k < 3 * (i + 1 + remaining) → w.fault k = none := by
  intro remaining
  induction remaining with
  | zero => intro i m r _ k h1 h2; omega
  | succ n ih =>
    intro i m r h k h1 h2
    unfold timedLoop at h
    simp only [emit, Outcome.bind_ok] at h
    cases hrp : (renderPass w (i + 1) scene.ClearColor scene).result with
    | error x =>
      rw [Outcome.bind_of_error _ _ x hrp] at h
      cases h
    | ok u =>
      rw [Outcome.bind_of_ok _ _ u hrp] at h
      simp only [Outcome.bind_ok] at h
      obtain ⟨f0, f1, f2⟩ := renderPass_result_ok w (i + 1) _ scene u hrp
      by_cases hk : k < 3 * (i + 1) + 3
      · have : k = 3 * (i + 1) ∨ k = 3 * (i + 1) + 1 ∨ k = 3 * (i + 1) + 2 := by omega
        rcases this with rfl | rfl | rfl
        · exact f0
        · exact f1
        · exact f2
      · exact ih (i + 1) _ r h k (by omega) (by omega)

theorem saveCalls_of_subset (t : List Event) (color : Vec4) (scene : TestScene)
    (h : ∀ e ∈ t, e ∈ passEvents color scene ∨ e ∈ timedPassEvents scene) :
    saveCalls t = [] := by
  unfold saveCalls
  rw [List.filter_eq_nil_iff]
  intro e he
  rcases h e he with h1 | h1
  · simp only [passEvents, List.mem_cons, List.mem_singleton, List.not_mem_nil,
      or_false] at h1
    rcases h1 with h1 | h1 | h1 <;> simp [h1]
  · simp only [timedPassEvents, passEvents, List.mem_cons, List.mem_singleton,
      List.not_mem_nil, or_false, List.cons_append, List.nil_append] at h1
    rcases h1 with h1 | h1 | h1 | h1 | h1 <;> simp [h1]

/-- With a fault among the 21 operations of the seven passes, the rendering part of
`Run` never reaches `SaveColorBuffer`. -/
theorem render_no_save (w : World) (d : TestDriver) (scene : TestScene)
    (hfault : ∃ k, k < 21 ∧ w.fault k ≠ none) :
    saveCalls (do
        renderPass w 0 ⟨0, 0, 0, 0⟩ scene
        let minTime ← timedLoop w scene frameCount 0 minTimeInit
        emit (.printfFrameTime (1000 * minTime))
        call (.SaveColorBuffer d.outputFileName) w.saveFault : Outcome Unit).trace = [] := by
  have hpass : saveCalls (renderPass w 0 ⟨0, 0, 0, 0⟩ scene).trace = [] :=
    saveCalls_of_subset _ _ scene fun e he => Or.inl (renderPass_subset w 0 _ scene e he)
  have hloop : saveCalls (timedLoop w scene frameCount 0 minTimeInit).trace = [] :=
    saveCalls_of_subset _ ⟨0, 0, 0, 0⟩ scene
      fun e he => Or.inr (timedLoop_subset w scene _ _ _ e he)
  cases hrp : (renderPass w 0 ⟨0, 0, 0, 0⟩ scene).result with
  | error x => rw [Outcome.bind_of_error _ _ x hrp]; exact hpass
  | ok u =>
    rw [Outcome.bind_of_ok _ _ u hrp]
    cases htl : (timedLoop w scene frameCount 0 minTimeInit).result with
    | error x =>
      rw [Outcome.bind_of_error _ _ x htl]
      unfold saveCalls at hpass hloop ⊢
      simp only [List.filter_append, hpass, hloop, List.append_nil]
    | ok m =>
      exfalso
      obtain ⟨k, hk, hne⟩ := hfault
      obtain ⟨f0, f1, f2⟩ := renderPass_result_ok w 0 _ scene u hrp
      by_cases h3 : k < 3
      · have : k = 0 ∨ k = 1 ∨ k = 2 := by omega
        rcases this with rfl | rfl | rfl
        · exact hne f0
        · exact hne f1
        · exact hne f2
      · exact hne (timedLoop_result_ok w scene frameCount 0 minTimeInit m htl k
          (by omega) (by simp only [frameCount]; omega))

/-- The three failures before the frame-time report: an unknown scene name, a scene
constructor that raises, a fault among the 21 operations of the seven passes.  In
each of them `Run` does not call `SaveColorBuffer`. -/
theorem Run_no_save (w : World) (d : TestDriver)
    (h : d.testName ∉ sceneNames
      ∨ (∃ n b x, d.selectScene = some (n, b) ∧ w.CreateTestScene n b = .error x)
      ∨ (∃ k, k < 21 ∧ w.fault k ≠ none)) :
    saveCalls (d.Run w).trace = [] := by
  cases hsel : d.selectScene with
  | none => simp [TestDriver.Run, hsel, emit, Outcome.bind_ok, saveCalls]
  | some nb =>
    obtain ⟨n, b⟩ := nb
    cases hc : w.CreateTestScene n b with
    | error x =>
      obtain ⟨rest, htrace, herr, _⟩ := Run_shape w d n b hsel
      rw [htrace, herr x hc]
      simp [saveCalls]
    | ok scene =>
      rcases h with h | ⟨n1, b1, x, h1, h2⟩ | h
      · rw [selectScene_of_not_mem d h] at hsel; cases hsel
      · rw [hsel] at h1
        cases h1
        rw [hc] at h2
        cases h2
      · rw [Run_of_scene w d n b scene hsel hc, Outcome.bind_ok]
        have := render_no_save w d scene h
        unfold saveCalls at this ⊢
        simp only [List.filter_append, this]
        simp

theorem saveCalls_handler (r : Except Exn Unit) :
    saveCalls (match r with
        | .ok _ => ([] : List Event)
        | .error x => catchEvents x) = [] := by
  unfold saveCalls
  rw [List.filter_eq_nil_iff]
  intro e he
  obtain ⟨text, rfl⟩ := handler_printf r e he
  simp

/-- In a run of `main` that constructs the driver, the `SaveColorBuffer` calls are
those of `Run`. -/
theorem saveCalls_main (w : World) (argv : List String) (a : Locals)
    (hparse : parseArgs w.StringToInt argv = .parsed a) (hv : validResolution a) :
    saveCalls (main w argv).trace = saveCalls ((driverOf a).Run w).trace := by
  have hpro : saveCalls (mainPrologue a (outputPath a)) = [] := by
    cases ht : a.tiled <;> simp [saveCalls, mainPrologue, banner, ht]
  have hhandler := saveCalls_handler ((driverOf a).Run w).result
  rw [main_of_valid w argv a hparse hv]
  unfold saveCalls at hpro hhandler ⊢
  simp only [List.filter_append, hpro, hhandler]
  simp

/-! ## Termination and reads of `argv` -/

/-- With `argc - ptr` iterations left in the budget the loop ends in `exit(0)` or at
the end of the list: it never reads outside `argv` and never runs out of budget. -/
theorem parseLoop_total (S : String → Int) (argv : List String) :
    ∀ (fuel : Nat) (a : Locals), argv.length ≤ a.ptr + fuel →
      parseLoop S argv fuel a = .usageExit ∨ ∃ a2, parseLoop S argv fuel a = .parsed a2 := by
  intro fuel
  induction fuel with
  | zero =>
    intro a hfuel
    right
    have hge : ¬ a.ptr < argv.length := by omega
    exact ⟨a, by simp [parseLoop, hge]⟩
  | succ n ih =>
    intro a hfuel
    unfold parseLoop
    by_cases hlt : a.ptr < argv.length
    · rw [if_pos hlt]
      obtain ⟨a1, s, hopt, _, hbody⟩ := loopBody_spec S argv a hlt
      obtain ⟨hle, _, _, _⟩ := optionStep_keeps S argv a a1 hlt hopt
      rcases hbody with ⟨_, hbody⟩ | ⟨_, hbody⟩
      · left; rw [hbody]
      · rw [hbody]
        exact ih (Locals.mk a1.width a1.height a1.testName a1.testOutput a1.baseDir
            (a1.tiled || decide (s = "-tiled")) (a1.ptr + 1))
          (show argv.length ≤ a1.ptr + 1 + n by omega)
    · rw [if_neg hlt]
      exact Or.inr ⟨a, rfl⟩

/-- One of the four options in the last position: the iteration changes nothing but
`ptr`. -/
theorem loopBody_last_option (S : String → Int) (argv : List String) (a : Locals) (o : String)
    (hlast : a.ptr + 1 = argv.length) (ho : argv[a.ptr]? = some o) (hval : isValueOption o) :
    loopBody S argv a = .parsed { a with ptr := a.ptr + 1 } := by
  have hopt : optionStep S argv a = .ok a := by
    unfold optionStep
    rw [if_neg (by omega)]
  simp only [loopBody, hopt]
  rcases flagStep_spec argv a o ho with ⟨hhelp, _⟩ | ⟨_, hflag⟩
  · exact absurd hhelp (not_help_of_valueOption o hval)
  · rw [hflag]
    simp [valueOption_ne_tiled o hval]

/-- The loop never assigns `testName`: whenever it ends, `testName` is the value of
lines 113-120. -/
theorem parseArgs_testName (S : String → Int) (argv : List String) (a : Locals)
    (h : parseArgs S argv = .parsed a) : a.testName = (initLocals argv).testName :=
  parseLoop_invariant S argv (fun a => a.testName = (initLocals argv).testName) (by
    intro a a2 hlt hP hb
    rcases loopBody_parsed S argv a a2 hlt hb with
      ⟨t, _, _, _, hname, _⟩ | ⟨o, v, _, _, _, _, _, hname, _⟩
    · exact hname.trans hP
    · exact hname.trans hP)
    argv.length (initLocals argv) a rfl h

/-- The command line ends in `exit(0)` exactly when a help token follows the binary
name, and is read to its end otherwise. -/
theorem parseArgs_cases (S : String → Int) (argv : List String) :
    ((∃ s ∈ argv.tail, isHelpToken s) ∧ parseArgs S argv = .usageExit)
    ∨ ((∀ s ∈ argv.tail, ¬ isHelpToken s) ∧ ∃ a, parseArgs S argv = .parsed a) := by
  by_cases h : ∃ s ∈ argv.tail, isHelpToken s
  · exact Or.inl ⟨h, parseArgs_help S argv h⟩
  · right
    have hno : ∀ s ∈ argv.tail, ¬ isHelpToken s := fun s hs hh => h ⟨s, hs, hh⟩
    obtain ⟨a, ha, _⟩ := parseArgs_parsed S argv hno
    exact ⟨hno, a, ha⟩

/-! ## One more argument at the end of the command line -/

/-- Past the end of the list the loop stops at once. -/
theorem parseLoop_at_end (S : String → Int) (argv : List String) (fuel : Nat) (a : Locals)
    (h : ¬ a.ptr < argv.length) : parseLoop S argv fuel a = .parsed a := by
  cases fuel <;> simp [parseLoop, h]

/-- One of the four options in the last position: the loop ends there, with nothing
changed but `ptr`. -/
theorem parseLoop_last_option (S : String → Int) (argv : List String) (a : Locals)
    (o : String) (fuel : Nat) (hlast : a.ptr + 1 = argv.length)
    (ho : argv[a.ptr]? = some o) (hval : isValueOption o) :
    parseLoop S argv (fuel + 1) a = .parsed { a with ptr := a.ptr + 1 } := by
  have hlt : a.ptr < argv.length := by omega
  unfold parseLoop
  rw [if_pos hlt, loopBody_last_option S argv a o hlast ho hval]
  exact parseLoop_at_end S argv fuel _ (by simp only; omega)

/-- A token that is none of the four options: the option step does nothing. -/
theorem optionStep_not_option (S : String → Int) (argv : List String) (a : Locals)
    (t : String) (ht : argv[a.ptr]? = some t) (hval : ¬ isValueOption t) :
    optionStep S argv a = .ok a := by
  simp only [isValueOption, not_or] at hval
  obtain ⟨h1, h2, h3, h4⟩ := hval
  unfold optionStep
  split_ifs
  · rw [ht]
    simp [h1, h2, h3, h4]
  · rfl

/-- One of the four options followed by a value: the option step takes the value. -/
theorem optionStep_option (S : String → Int) (argv : List String) (a : Locals)
    (p v : String) (hp : argv[a.ptr]? = some p) (hv : argv[a.ptr + 1]? = some v)
    (hval : isValueOption p) :
    ∃ a1, optionStep S argv a = .ok a1
      ∧ a1.ptr = a.ptr + 1 ∧ a1.testName = a.testName ∧ a1.tiled = a.tiled
      ∧ a1.testOutput = (if p = "-o" then v else a.testOutput)
      ∧ a1.width = (if p = "-w" then S v else a.width)
      ∧ a1.height = (if p = "-h" then S v else a.height)
      ∧ a1.baseDir = (if p = "-mediadir" then v else a.baseDir) := by
  have hlt : a.ptr < argv.length := (List.getElem?_eq_some_iff.1 hp).1
  rcases optionStep_spec S argv a hlt with
    hopt | ⟨o1, v1, a1, ho1, hv1, _, hopt, h1, h2, h3, h4, h5, h6, h7⟩
  · exfalso
    have hlen : a.ptr + 1 < argv.length := (List.getElem?_eq_some_iff.1 hv).1
    unfold optionStep at hopt
    rw [if_pos (by omega), hp, hv] at hopt
    rcases hval with rfl | rfl | rfl | rfl <;> simp at hopt <;>
      · have := congrArg Locals.ptr hopt
        simp at this
  · rw [hp] at ho1
    rw [hv] at hv1
    cases ho1
    cases hv1
    exact ⟨a1, hopt, h1, h2, h3, h4, h5, h6, h7⟩

theorem optionStep_append (S : String → Int) (pre : List String) (o : String) (a : Locals)
    (h : a.ptr + 1 < pre.length) :
    optionStep S (pre ++ [o]) a = optionStep S pre a := by
  have c1 : (a.ptr : Int) < (pre.length : Int) - 1 := by omega
  have c2 : (a.ptr : Int) < ((pre ++ [o]).length : Int) - 1 := by
    rw [List.length_append, List.length_singleton]; push_cast; omega
  unfold optionStep
  rw [if_pos c1, if_pos c2, List.getElem?_append_left (by omega : a.ptr < pre.length),
    List.getElem?_append_left h]

theorem flagStep_append (pre : List String) (o : String) (a : Locals)
    (h : a.ptr < pre.length) : flagStep (pre ++ [o]) a = flagStep pre a := by
  unfold flagStep
  rw [List.getElem?_append_left h]

/-- The iteration is the same with one more argument at the end, unless it stands on
one of the four options in the last position of the shorter list. -/
theorem loopBody_append (S : String → Int) (pre : List String) (o : String) (a : Locals)
    (hlt : a.ptr < pre.length)
    (hnot : ∀ t, a.ptr + 1 = pre.length → pre[a.ptr]? = some t → ¬ isValueOption t) :
    loopBody S (pre ++ [o]) a = loopBody S pre a := by
  by_cases h : a.ptr + 1 < pre.length
  · obtain ⟨a1, _, hopt, _, _⟩ := loopBody_spec S pre a hlt
    obtain ⟨_, hle, _, _⟩ := optionStep_keeps S pre a a1 hlt hopt
    simp only [loopBody, optionStep_append S pre o a h, hopt]
    by_cases h1 : a1.ptr < pre.length
    · exact flagStep_append pre o a1 h1
    · exfalso; omega
  · have hlast : a.ptr + 1 = pre.length := by omega
    have ht : pre[a.ptr]? = some pre[a.ptr] := List.getElem?_eq_getElem hlt
    have ht2 : (pre ++ [o])[a.ptr]? = some pre[a.ptr] := by
      rw [List.getElem?_append_left hlt]; exact ht
    have hval := hnot _ hlast ht
    simp only [loopBody, optionStep_not_option S pre a _ ht hval,
      optionStep_not_option S (pre ++ [o]) a _ ht2 hval]
    exact flagStep_append pre o a hlt

theorem parseLoop_succ (S : String → Int) (argv : List String) (fuel : Nat) (a : Locals)
    (hlt : a.ptr < argv.length) :
    parseLoop S argv (fuel + 1) a =
      match loopBody S argv a with
      | .parsed a2 => parseLoop S argv fuel a2
      | r => r := by
  show (if a.ptr < argv.length then _ else _) = _
  rw [if_pos hlt]

/-- The loop standing at the end of the shorter list: the shorter list is done, the
longer one skips its last argument. -/
theorem parseLoop_append_end (S : String → Int) (pre : List String) (o : String)
    (ho : isValueOption o) (f f2 : Nat) (a : Locals) (hend : a.ptr = pre.length)
    (hf2 : pre.length + 1 ≤ a.ptr + f2) :
    ∃ x x2, parseLoop S pre f a = .parsed x ∧ parseLoop S (pre ++ [o]) f2 a = .parsed x2
      ∧ sameOptionVars x x2 ∧ x2.testName = x.testName := by
  obtain ⟨m, rfl⟩ : ∃ m, f2 = m + 1 := ⟨f2 - 1, by omega⟩
  have hget : (pre ++ [o])[a.ptr]? = some o := by
    rw [List.getElem?_append_right (by omega), hend]; simp
  refine ⟨a, { a with ptr := a.ptr + 1 }, parseLoop_at_end S pre f a (by omega),
    parseLoop_last_option S (pre ++ [o]) a o m (by simp [hend]) hget ho, ?_, rfl⟩
  exact ⟨rfl, rfl, rfl, rfl, rfl⟩

/-- The loop on an argument list and on the list with one of the four options added
at the end: both end in `exit(0)`, or both end with the same variables, or the
added argument is consumed as the value of the option before it. -/
theorem parseLoop_append (S : String → Int) (pre : List String) (o : String)
    (ho : isValueOption o) :
    ∀ (f : Nat) (a : Locals) (f2 : Nat), 1 ≤ a.ptr → a.ptr ≤ pre.length →
      pre.length ≤ a.ptr + f → pre.length + 1 ≤ a.ptr + f2 →
      (parseLoop S pre f a = .usageExit ∧ parseLoop S (pre ++ [o]) f2 a = .usageExit)
      ∨ (∃ x x2, parseLoop S pre f a = .parsed x ∧ parseLoop S (pre ++ [o]) f2 a = .parsed x2
          ∧ sameOptionVars x x2 ∧ x2.testName = x.testName)
      ∨ (∃ p x x2, 2 ≤ pre.length ∧ pre.getLast? = some p ∧ isValueOption p
          ∧ parseLoop S pre f a = .parsed x ∧ parseLoop S (pre ++ [o]) f2 a = .parsed x2
          ∧ x2.testOutput = (if p = "-o" then o else x.testOutput)
          ∧ x2.width = (if p = "-w" then S o else x.width)
          ∧ x2.height = (if p = "-h" then S o else x.height)
          ∧ x2.baseDir = (if p = "-mediadir" then o else x.baseDir)
          ∧ x2.tiled = x.tiled ∧ x2.testName = x.testName) := by
  intro f
  induction f with
  | zero =>
    intro a f2 h1 h2 h3 h4
    exact Or.inr (Or.inl (parseLoop_append_end S pre o ho 0 f2 a (by omega) h4))
  | succ n ih =>
    intro a f2 h1 h2 h3 h4
    by_cases hlt : a.ptr < pre.length
    · obtain ⟨m, rfl⟩ : ∃ m, f2 = m + 1 := ⟨f2 - 1, by omega⟩
      have hlt2 : a.ptr < (pre ++ [o]).length := by
        rw [List.length_append]; omega
      have ht : pre[a.ptr]? = some pre[a.ptr] := List.getElem?_eq_getElem hlt
      by_cases hcons : a.ptr + 1 = pre.length ∧ isValueOption pre[a.ptr]
      · obtain ⟨hlast, hval⟩ := hcons
        right; right
        have hp2 : (pre ++ [o])[a.ptr]? = some pre[a.ptr] := by
          rw [List.getElem?_append_left hlt]; exact ht
        have hv2 : (pre ++ [o])[a.ptr + 1]? = some o := by
          rw [List.getElem?_append_right (by omega), hlast]; simp
        obtain ⟨a1, hopt, e1, e2, e3, e4, e5, e6, e7⟩ :=
          optionStep_option S (pre ++ [o]) a _ o hp2 hv2 hval
        have hv3 : (pre ++ [o])[a1.ptr]? = some o := by rw [e1]; exact hv2
        have hbody : loopBody S (pre ++ [o]) a =
            .parsed { a1 with tiled := a1.tiled || decide (o = "-tiled"),
                              ptr := a1.ptr + 1 } := by
          simp only [loopBody, hopt]
          rcases flagStep_spec (pre ++ [o]) a1 o hv3 with ⟨hh, _⟩ | ⟨_, hflag⟩
          · exact absurd hh (not_help_of_valueOption o ho)
          · exact hflag
        have hlong : parseLoop S (pre ++ [o]) (m + 1) a =
            .parsed { a1 with tiled := a1.tiled || decide (o = "-tiled"),
                              ptr := a1.ptr + 1 } := by
          rw [parseLoop_succ S _ m a hlt2, hbody]
          exact parseLoop_at_end S _ m _ (by
            rw [List.length_append, List.length_singleton]
            show ¬ a1.ptr + 1 < pre.length + 1
            omega)
        have hlastq : pre.getLast? = some pre[a.ptr] := by
          rw [List.getLast?_eq_getElem?, ← hlast]
          exact ht
        refine ⟨pre[a.ptr], { a with ptr := a.ptr + 1 }, _, by omega, hlastq, hval,
          parseLoop_last_option S pre a _ n hlast ht hval, hlong, e4, e5, e6, e7, ?_, e2⟩
        show (a1.tiled || decide (o = "-tiled")) = a.tiled
        rw [e3, decide_eq_false (valueOption_ne_tiled o ho), Bool.or_false]
      · have hbodyEq : loopBody S (pre ++ [o]) a = loopBody S pre a :=
          loopBody_append S pre o a hlt (by
            intro t hl hget hv
            rw [ht] at hget
            cases hget
            exact hcons ⟨hl, hv⟩)
        obtain ⟨a1, s, hopt, hs, hbody⟩ := loopBody_spec S pre a hlt
        obtain ⟨hle, _, _, _⟩ := optionStep_keeps S pre a a1 hlt hopt
        have ha1 : a1.ptr < pre.length := (List.getElem?_eq_some_iff.1 hs).1
        rcases hbody with ⟨_, hbody⟩ | ⟨_, hbody⟩
        · left
          rw [parseLoop_succ S pre n a hlt, parseLoop_succ S _ m a hlt2, hbodyEq, hbody]
          exact ⟨rfl, rfl⟩
        · rw [parseLoop_succ S pre n a hlt, parseLoop_succ S _ m a hlt2, hbodyEq, hbody]
          exact ih (Locals.mk a1.width a1.height a1.testName a1.testOutput a1.baseDir
              (a1.tiled || decide (s = "-tiled")) (a1.ptr + 1)) m
            (show 1 ≤ a1.ptr + 1 by omega) (show a1.ptr + 1 ≤ pre.length by omega)
            (show pre.length ≤ a1.ptr + 1 + n by omega)
            (show pre.length + 1 ≤ a1.ptr + 1 + m by omega)
    · exact Or.inr (Or.inl (parseLoop_append_end S pre o ho (n + 1) f2 a (by omega) h4))

/-- One of the four options added at the end of an argument list is ignored, or it is
consumed as the value of the option before it. -/
theorem parseArgs_append (S : String → Int) (pre : List String) (o : String)
    (hpre : pre ≠ []) (ho : isValueOption o) :
    lastArgumentIgnored S pre o ∨ lastArgumentConsumed S pre o := by
  by_cases hlen : 2 ≤ pre.length
  · have hinit : initLocals (pre ++ [o]) = initLocals pre := by
      have h2 : 2 ≤ (pre ++ [o]).length := by rw [List.length_append]; omega
      simp only [initLocals, if_pos hlen, if_pos h2, List.getD_eq_getElem?_getD]
      rw [List.getElem?_append_left (by omega : 1 < pre.length)]
    have hlong : parseArgs S (pre ++ [o])
        = parseLoop S (pre ++ [o]) (pre.length + 1) (initLocals pre) := by
      simp only [parseArgs, hinit, List.length_append, List.length_singleton]
    have key := parseLoop_append S pre o ho pre.length (initLocals pre) (pre.length + 1)
      (le_refl 1) (by simp only [initLocals]; omega) (by simp only [initLocals]; omega)
      (by simp only [initLocals]; omega)
    rw [← hlong] at key
    rcases key with h | ⟨x, x2, h1, h2, h3, _⟩ | ⟨p, x, x2, h0, h1, h2, h3, h4, h5⟩
    · exact Or.inl (Or.inl h)
    · exact Or.inl (Or.inr ⟨x, x2, h1, h2, h3⟩)
    · exact Or.inr ⟨p, x, x2, h0, h1, h2, h3, h4, h5⟩
  · left; right
    match pre, hpre, hlen with
    | [b], _, _ =>
      refine ⟨initLocals [b], { initLocals [b, o] with ptr := 2 }, ?_, ?_, ?_⟩
      · exact parseLoop_at_end S [b] 1 (initLocals [b]) (by simp [initLocals])
      · exact parseLoop_last_option S [b, o] (initLocals [b, o]) o 1 rfl rfl ho
      · exact ⟨rfl, rfl, rfl, rfl, rfl⟩
    | _ :: _ :: _, _, h => exact absurd (by simp) h

/-! ## The claims -/

/-- C2: in a run of `TestDriver::Run` whose scene name is one of the eight known names
and in which no operation raises, the renderer operations issued are exactly seven
passes `Clear`, `Draw`, `Finish`: the warm-up pass clearing to rgba(0,0,0,0), then
six timed passes clearing to the scene's declared clear colour, and no other
`Clear`, `Draw` or `Finish`. -/
theorem C2_seven_passes (w : World) (d : TestDriver) (scene : TestScene)
    (hname : d.testName ∈ sceneNames)
    (hscene : ∀ n b, d.selectScene = some (n, b) → w.CreateTestScene n b = .ok scene)
    (hfault : ∀ k, w.fault k = none) :
    rendererOps (d.Run w).trace =
      [.Clear ⟨0, 0, 0, 0⟩, .Draw scene, .Finish]
        ++ (List.replicate 6 [.Clear scene.ClearColor, .Draw scene, .Finish]).flatten := by
  obtain ⟨n, b, hsel⟩ := selectScene_of_mem d hname
  rw [Run_trace_ok w d n b scene hsel (hscene n b hsel) hfault]
  simp [runEvents, runPrefixEvents, rendererOps, passEvents, timedPassEvents, frameCount, List.replicate,
    List.filter]

/-- Witness of C2: the scene `triangle` in the fault-free sample world. -/
theorem C2_seven_passes_witness :
    rendererOps (triangleDriver.Run quietWorld).trace =
      [.Clear ⟨0, 0, 0, 0⟩, .Draw quietTriangle, .Finish]
        ++ (List.replicate 6
          [.Clear quietTriangle.ClearColor, .Draw quietTriangle, .Finish]).flatten :=
  C2_seven_passes quietWorld triangleDriver quietTriangle (by decide)
    (by intro n b h; simp [TestDriver.selectScene, triangleDriver] at h
        obtain ⟨rfl, rfl⟩ := h; rfl)
    (fun _ => rfl)

/-- C3: in a successful run of `TestDriver::Run` (known scene name, no operation
raises) `SaveColorBuffer` is called exactly once, with the configured output path,
as the last call of the run: it follows the frame-time report, all seven passes
(so the `Finish` of the sixth timed pass) come before it, and nothing is rendered
after it. -/
theorem C3_save_once_last (w : World) (d : TestDriver) (scene : TestScene)
    (hname : d.testName ∈ sceneNames)
    (hscene : ∀ n b, d.selectScene = some (n, b) → w.CreateTestScene n b = .ok scene)
    (hfault : ∀ k, w.fault k = none) :
    ∃ pre ms,
      (d.Run w).trace = pre ++ [.printfFrameTime ms, .SaveColorBuffer d.outputFileName]
      ∧ saveCalls pre = []
      ∧ rendererOps pre =
          [.Clear ⟨0, 0, 0, 0⟩, .Draw scene, .Finish]
            ++ (List.replicate 6 [.Clear scene.ClearColor, .Draw scene, .Finish]).flatten
      ∧ saveCalls (d.Run w).trace = [.SaveColorBuffer d.outputFileName] := by
  obtain ⟨n, b, hsel⟩ := selectScene_of_mem d hname
  refine ⟨runPrefixEvents d n b scene, 1000 * runningMin w frameCount 0 minTimeInit,
    ?_, ?_, ?_, ?_⟩
  · rw [Run_trace_ok w d n b scene hsel (hscene n b hsel) hfault, runEvents]
  · simp [runPrefixEvents, saveCalls, passEvents, timedPassEvents, frameCount, List.replicate, List.filter]
  · simp [runPrefixEvents, rendererOps, passEvents, timedPassEvents, frameCount,
      List.replicate, List.filter]
  · rw [Run_trace_ok w d n b scene hsel (hscene n b hsel) hfault]
    simp [runEvents, runPrefixEvents, saveCalls, passEvents, timedPassEvents, frameCount, List.replicate,
      List.filter]

/-- Witness of C3: the scene `triangle` in the fault-free sample world. -/
theorem C3_save_once_last_witness :
    ∃ pre ms,
      (triangleDriver.Run quietWorld).trace
        = pre ++ [.printfFrameTime ms, .SaveColorBuffer "triangle_output.bmp"]
      ∧ saveCalls pre = []
      ∧ rendererOps pre =
          [.Clear ⟨0, 0, 0, 0⟩, .Draw quietTriangle, .Finish]
            ++ (List.replicate 6
              [.Clear quietTriangle.ClearColor, .Draw quietTriangle, .Finish]).flatten
      ∧ saveCalls (triangleDriver.Run quietWorld).trace
        = [.SaveColorBuffer "triangle_output.bmp"] :=
  C3_save_once_last quietWorld triangleDriver quietTriangle (by decide)
    (by intro n b h; simp [TestDriver.selectScene, triangleDriver] at h
        obtain ⟨rfl, rfl⟩ := h; rfl)
    (fun _ => rfl)

/-- C4: for a scene name that is not exactly one of the eight names, `TestDriver::Run`
prints the loading line and the diagnostic `Unknown scene "<name>".` and does
nothing else: no scene constructor, no `Clear`, `Draw`, `Finish`, no
`SaveColorBuffer`.  For the `k`-th of the eight names it calls exactly one scene
constructor, `CreateTestScene<k>`, with the base directory unless `k` is 0 or 6,
whatever the collaborators do. -/
theorem C4_scene_dispatch (w : World) (d : TestDriver) :
    (d.testName ∉ sceneNames →
      d.Run w = ⟨[.printf "Loading scene...\n",
        .printf ("Unknown scene \"" ++ d.testName ++ "\".\n")], .ok ()⟩)
    ∧ (∀ k (hk : k < sceneNames.length), d.testName = sceneNames[k] →
        sceneCalls (d.Run w).trace =
          [.CreateTestScene k (if k = 0 ∨ k = 6 then none else some d.baseDir)]) := by
  constructor
  · intro h
    simp [TestDriver.Run, selectScene_of_not_mem d h, emit, Outcome.bind_ok]
  · intro k hk hname
    apply sceneCalls_Run
    simp only [sceneNames, List.length_cons, List.length_nil] at hk
    interval_cases k <;> simp [sceneNames] at hname <;> simp [TestDriver.selectScene, hname]

/-- Witness of C4: the name `doesnotexist`, and the name `sponza`, fifth of the chain. -/
theorem C4_scene_dispatch_witness :
    unknownDriver.Run quietWorld = ⟨[.printf "Loading scene...\n",
        .printf "Unknown scene \"doesnotexist\".\n"], .ok ()⟩
    ∧ sceneCalls (sponzaDriver.Run quietWorld).trace
        = [.CreateTestScene 4 (some "../../Media")] :=
  ⟨(C4_scene_dispatch quietWorld unknownDriver).1 (by decide),
    (C4_scene_dispatch quietWorld sponzaDriver).2 4 (by decide) rfl⟩

/-- C5: in a successful run, with the six elapsed times taken as exact rationals, the
running minimum held after the timed loop is at most every one of the six samples;
the running minimum after `k + 1` passes is at most the one after `k` passes; the
frame time printed is exactly 1000 times the final minimum, and it is the only
frame time printed; and when every sample is non-negative the printed value is
non-negative. -/
theorem C5_running_minimum (w : World) (d : TestDriver) (scene : TestScene)
    (hname : d.testName ∈ sceneNames)
    (hscene : ∀ n b, d.selectScene = some (n, b) → w.CreateTestScene n b = .ok scene)
    (hfault : ∀ k, w.fault k = none) :
    ∃ held : Nat → ℚ,
      (∀ k, (timedLoop w scene k 0 minTimeInit).result = .ok (held k))
      ∧ (∀ i, i < 6 → held 6 ≤ w.elapsed i)
      ∧ (∀ k, k < 6 → held (k + 1) ≤ held k)
      ∧ (∀ v, .printfFrameTime v ∈ (d.Run w).trace ↔ v = 1000 * held 6)
      ∧ ((∀ i, i < 6 → 0 ≤ w.elapsed i) → 0 ≤ 1000 * held 6) := by
  obtain ⟨n, b, hsel⟩ := selectScene_of_mem d hname
  refine ⟨fun k => runningMin w k 0 minTimeInit, ?_, ?_, ?_, ?_, ?_⟩
  · intro k; rw [timedLoop_ok w hfault]
  · intro i hi
    simpa using runningMin_le_sample w 6 0 minTimeInit i hi
  · intro k _
    show runningMin w (k + 1) 0 minTimeInit ≤ runningMin w k 0 minTimeInit
    rw [runningMin_succ]
    exact minStep_le_right _ _
  · intro v
    exact frameTime_mem_Run w d n b scene hsel (hscene n b hsel) hfault v
  · intro h
    have h0 : (0 : ℚ) ≤ minTimeInit := by norm_num [minTimeInit]
    have := runningMin_nonneg w 6 0 minTimeInit h0 (fun j hj => by simpa using h j hj)
    show (0 : ℚ) ≤ 1000 * runningMin w 6 0 minTimeInit
    positivity

/-- Witness of C5: the scene `triangle` in the fault-free sample world. -/
theorem C5_running_minimum_witness :
    ∃ held : Nat → ℚ,
      (∀ k, (timedLoop quietWorld quietTriangle k 0 minTimeInit).result = .ok (held k))
      ∧ (∀ i, i < 6 → held 6 ≤ quietWorld.elapsed i)
      ∧ (∀ k, k < 6 → held (k + 1) ≤ held k)
      ∧ (∀ v, .printfFrameTime v ∈ (triangleDriver.Run quietWorld).trace ↔ v = 1000 * held 6)
      ∧ ((∀ i, i < 6 → 0 ≤ quietWorld.elapsed i) → 0 ≤ 1000 * held 6) :=
  C5_running_minimum quietWorld triangleDriver quietTriangle (by decide)
    (by intro n b h; simp [TestDriver.selectScene, triangleDriver] at h
        obtain ⟨rfl, rfl⟩ := h; rfl)
    (fun _ => rfl)

/-- C6, counterexample: when all six timed passes take 2e11 seconds the run is
successful, the minimum held after the loop is the initial 10e10 itself, the frame
time printed is 1000 times that, and the minimum is not strictly less than the
initial value. -/
theorem C6_counterexample :
    ∃ m, (timedLoop slowWorld quietTriangle frameCount 0 minTimeInit).result = .ok m
      ∧ .printfFrameTime (1000 * m) ∈ (triangleDriver.Run slowWorld).trace
      ∧ ¬ (m < minTimeInit) := by
  have hf : ∀ k, slowWorld.fault k = none := fun _ => rfl
  have hmin : runningMin slowWorld frameCount 0 minTimeInit = minTimeInit := by
    norm_num [runningMin, frameCount, minStep, minTimeInit, slowWorld]
  refine ⟨minTimeInit, ?_, ?_, lt_irrefl _⟩
  · rw [timedLoop_ok slowWorld hf, hmin]
  · rw [frameTime_mem_Run slowWorld triangleDriver 0 none quietTriangle (by decide) rfl hf, hmin]

/-- C6, amended: in a successful run the minimum held after the timed loop, whose
1000-fold is the frame time printed, is at most the initial value 10e10, and it is
strictly less than the initial value exactly when at least one of the six samples
is less than 10e10. -/
theorem C6_minimum_below_initial (w : World) (d : TestDriver) (scene : TestScene)
    (hname : d.testName ∈ sceneNames)
    (hscene : ∀ n b, d.selectScene = some (n, b) → w.CreateTestScene n b = .ok scene)
    (hfault : ∀ k, w.fault k = none) :
    ∃ m, (timedLoop w scene frameCount 0 minTimeInit).result = .ok m
      ∧ .printfFrameTime (1000 * m) ∈ (d.Run w).trace
      ∧ m ≤ minTimeInit
      ∧ (m < minTimeInit ↔ ∃ i, i < 6 ∧ w.elapsed i < minTimeInit) := by
  obtain ⟨n, b, hsel⟩ := selectScene_of_mem d hname
  refine ⟨runningMin w frameCount 0 minTimeInit, ?_, ?_, ?_, ?_⟩
  · rw [timedLoop_ok w hfault]
  · exact (frameTime_mem_Run w d n b scene hsel (hscene n b hsel) hfault _).2 rfl
  · exact runningMin_le_init w _ _ _
  · simpa [frameCount] using runningMin_lt_iff w 6 0 minTimeInit

/-- Witness of the amended C6: the scene `triangle` in the fault-free sample world. -/
theorem C6_minimum_below_initial_witness :
    ∃ m, (timedLoop quietWorld quietTriangle frameCount 0 minTimeInit).result = .ok m
      ∧ .printfFrameTime (1000 * m) ∈ (triangleDriver.Run quietWorld).trace
      ∧ m ≤ minTimeInit
      ∧ (m < minTimeInit ↔ ∃ i, i < 6 ∧ quietWorld.elapsed i < minTimeInit) :=
  C6_minimum_below_initial quietWorld triangleDriver quietTriangle (by decide)
    (by intro n b h; simp [TestDriver.selectScene, triangleDriver] at h
        obtain ⟨rfl, rfl⟩ := h; rfl)
    (fun _ => rfl)

/-- C1: for every argument list without a help token after the binary name, the
command line is read to its end, and `main` prints `Invalid resolution.` and
returns -1 without doing anything else (no driver, no renderer, no scene, no
render, no save) if and only if the parsed width or the parsed height lies
outside (0, 4096]; when both lie inside, `main` returns 0 and the driver is
constructed with exactly that width and height. -/
theorem C1_resolution_gate (w : World) (argv : List String)
    (hno : ∀ s ∈ argv.tail, ¬ isHelpToken s) :
    ∃ a, parseArgs w.StringToInt argv = .parsed a
      ∧ (main w argv = ⟨[.printf "Invalid resolution.\n"], some (-1)⟩
          ↔ ¬ (0 < a.width ∧ a.width ≤ 4096 ∧ 0 < a.height ∧ a.height ≤ 4096))
      ∧ ((0 < a.width ∧ a.width ≤ 4096 ∧ 0 < a.height ∧ a.height ≤ 4096) →
          (main w argv).status = some 0
          ∧ ∃ output rest, (main w argv).trace =
              [banner a.tiled,
                .TestDriver a.width a.height a.tiled a.testName output a.baseDir,
                .FrameBuffer a.width a.height] ++ rest) := by
  obtain ⟨a, ha, _⟩ := parseArgs_parsed w.StringToInt argv hno
  refine ⟨a, ha, ?_, ?_⟩
  · rw [main_of_parsed w argv a ha]
    by_cases hbad : a.width ≤ 0 ∨ a.width > 4096 ∨ a.height ≤ 0 ∨ a.height > 4096
    · rw [if_pos hbad]
      constructor
      · intro _ hgood; omega
      · intro _; rfl
    · rw [if_neg hbad]
      constructor
      · intro h
        have := congrArg Exit.status h
        simp at this
      · intro hgood
        exact absurd (by omega) hgood
  · intro hgood
    have hbad : ¬ (a.width ≤ 0 ∨ a.width > 4096 ∨ a.height ≤ 0 ∨ a.height > 4096) := by omega
    rw [main_of_parsed w argv a ha, if_neg hbad]
    obtain ⟨rest, hrest⟩ := tryBlock_prologue w a
      (if a.testOutput = "" then a.testName ++ "_output.bmp" else a.testOutput)
    refine ⟨rfl, if a.testOutput = "" then a.testName ++ "_output.bmp" else a.testOutput,
      (if a.tiled then .CreateTiledRenderer else .CreateForwardNonTiledRenderer)
        :: .SetFrameBuffer :: rest, ?_⟩
    show tryBlock w a _ = _
    rw [hrest]
    rfl

/-- Witness of C1: `TestDriver triangle -w 5000` in the sample world. -/
theorem C1_resolution_gate_witness :
    ∃ a, parseArgs quietWorld.StringToInt ["TestDriver", "triangle", "-w", "5000"] = .parsed a
      ∧ (main quietWorld ["TestDriver", "triangle", "-w", "5000"]
            = ⟨[.printf "Invalid resolution.\n"], some (-1)⟩
          ↔ ¬ (0 < a.width ∧ a.width ≤ 4096 ∧ 0 < a.height ∧ a.height ≤ 4096))
      ∧ ((0 < a.width ∧ a.width ≤ 4096 ∧ 0 < a.height ∧ a.height ≤ 4096) →
          (main quietWorld ["TestDriver", "triangle", "-w", "5000"]).status = some 0
          ∧ ∃ output rest, (main quietWorld ["TestDriver", "triangle", "-w", "5000"]).trace =
              [banner a.tiled,
                .TestDriver a.width a.height a.tiled a.testName output a.baseDir,
                .FrameBuffer a.width a.height] ++ rest) :=
  C1_resolution_gate quietWorld ["TestDriver", "triangle", "-w", "5000"] (by decide)

/-- C7: when some argument after the binary name is `-help`, `--help` or `-?`, at any
position (also directly after `-o`, `-w`, `-h` or `-mediadir`), `main` prints the
usage text of lines 101-106 with the binary name in it and exits with status 0,
and does nothing else: no resolution check, no driver, nothing rendered or saved,
whatever the other arguments are. -/
theorem C7_help_exits (w : World) (argv : List String)
    (hhelp : ∃ s ∈ argv.tail, isHelpToken s) :
    main w argv =
      ⟨[.printf ("Renderer Test Driver\nUsage:\n   " ++ argv.getD 0 ""
          ++ " testname [-w imagewidth] [-h imageweight] [-tiled] [-mediadir dir]\n\n"
          ++ "   testname can be: triangle, square, sibenik, bunny, sponza, warehouse, alphablend, station\n\n"
          ++ "   mediadir: base directory without trialing slash: e.g., ../../Media\n\n")],
        some 0⟩ := by
  simp only [main, parseArgs_help w.StringToInt argv hhelp, Usage]

/-- Witness of C7: `-help` directly after `-o`, before a width out of range. -/
theorem C7_help_exits_witness :
    main quietWorld ["TestDriver", "triangle", "-o", "-help", "-w", "5000"]
      = ⟨[.printf ("Renderer Test Driver\nUsage:\n   " ++ "TestDriver"
          ++ " testname [-w imagewidth] [-h imageweight] [-tiled] [-mediadir dir]\n\n"
          ++ "   testname can be: triangle, square, sibenik, bunny, sponza, warehouse, alphablend, station\n\n"
          ++ "   mediadir: base directory without trialing slash: e.g., ../../Media\n\n")],
        some 0⟩ :=
  C7_help_exits quietWorld ["TestDriver", "triangle", "-o", "-help", "-w", "5000"]
    ⟨"-help", by decide, by decide⟩

/-- C8, counterexample: for `TestDriver -w 64 triangle` the first non-flag argument is
`triangle`, but `main` resolves the scene name `-w` and constructs the driver with
it. -/
theorem C8_counterexample :
    firstNonFlagArgument ["-w", "64", "triangle"] = "triangle"
    ∧ (∃ a, parseArgs quietWorld.StringToInt ["TestDriver", "-w", "64", "triangle"] = .parsed a
        ∧ a.testName = "-w" ∧ a.testName ≠ firstNonFlagArgument ["-w", "64", "triangle"])
    ∧ .TestDriver 64 768 false "-w" "-w_output.bmp" "./Media"
        ∈ (main quietWorld ["TestDriver", "-w", "64", "triangle"]).trace := by
  refine ⟨by decide, ⟨⟨64, 768, "-w", "", "./Media", false, 4⟩, by decide, rfl, by decide⟩, ?_⟩
  have h : parseArgs quietWorld.StringToInt ["TestDriver", "-w", "64", "triangle"]
      = .parsed ⟨64, 768, "-w", "", "./Media", false, 4⟩ := by decide
  rw [main_of_parsed quietWorld _ _ h]
  obtain ⟨rest, hrest⟩ := tryBlock_prologue quietWorld ⟨64, 768, "-w", "", "./Media", false, 4⟩
    "-w_output.bmp"
  have hout : (if ("" : String) = "" then "-w" ++ "_output.bmp" else "") = "-w_output.bmp" := by
    decide
  rw [if_neg (by decide)]
  show _ ∈ tryBlock quietWorld ⟨64, 768, "-w", "", "./Media", false, 4⟩
    (if ("" : String) = "" then "-w" ++ "_output.bmp" else "")
  rw [hout, hrest]
  simp [mainPrologue]

/-- C8, amended: for every argument list, the scene name `main` resolves (`testName`
after lines 113-120) is the first argument after the binary name, whatever it is
(an option, a flag or a help token included), and `sponza` when there is no
argument.  The loop never changes it: either a help token follows the binary name
and the process exits, or the command line is read to its end with that scene
name, and with a valid resolution the driver is constructed with it.  It is the
first non-flag argument whenever that first argument is absent or is not an option
or flag. -/
theorem C8_scene_name_is_first_argument (w : World) (argv : List String) :
    (∀ s, argv[1]? = some s → (initLocals argv).testName = s)
    ∧ (argv[1]? = none → (initLocals argv).testName = "sponza")
    ∧ (((∃ s ∈ argv.tail, isHelpToken s) ∧ parseArgs w.StringToInt argv = .usageExit)
      ∨ ((∀ s ∈ argv.tail, ¬ isHelpToken s)
        ∧ ∃ a, parseArgs w.StringToInt argv = .parsed a
          ∧ a.testName = (initLocals argv).testName))
    ∧ (∀ a, parseArgs w.StringToInt argv = .parsed a → validResolution a →
        ∃ output rest, (main w argv).trace =
          [banner a.tiled,
            .TestDriver a.width a.height a.tiled (initLocals argv).testName output a.baseDir]
            ++ rest)
    ∧ ((∀ s, argv[1]? = some s → ¬ isFlagToken s) →
        (initLocals argv).testName = firstNonFlagArgument argv.tail) := by
  refine ⟨?_, ?_, ?_, ?_, ?_⟩
  · intro s hs
    have hlen : 1 < argv.length := (List.getElem?_eq_some_iff.1 hs).1
    simp only [initLocals, if_pos (show 2 ≤ argv.length from hlen)]
    rw [List.getD_eq_getElem?_getD, hs]
    rfl
  · intro hnone
    have hlen : argv.length ≤ 1 := List.getElem?_eq_none_iff.1 hnone
    simp only [initLocals, if_neg (show ¬ 2 ≤ argv.length by omega)]
  · rcases parseArgs_cases w.StringToInt argv with h | ⟨hno, a, ha⟩
    · exact Or.inl h
    · exact Or.inr ⟨hno, a, ha, parseArgs_testName w.StringToInt argv a ha⟩
  · intro a ha hv
    rw [main_of_valid w argv a ha hv, ← parseArgs_testName w.StringToInt argv a ha]
    exact ⟨outputPath a, _, rfl⟩
  · intro hflag
    match argv, hflag with
    | [], _ => rfl
    | [_], _ => rfl
    | [_, s], hflag =>
      have hs : ¬ isFlagToken s := hflag s rfl
      simp [initLocals, firstNonFlagArgument, hs]
    | _ :: s :: v :: rest, hflag =>
      have hs : ¬ isFlagToken s := hflag s rfl
      have hv : ¬ isValueOption s := fun h => hs (Or.inl h)
      simp [initLocals, firstNonFlagArgument, hs, hv]

/-- Witness of the amended C8: `TestDriver -w 64 triangle` in the sample world, and the
scene name of `TestDriver -help`. -/
theorem C8_scene_name_is_first_argument_witness :
    (initLocals ["TestDriver", "-w", "64", "triangle"]).testName = "-w"
    ∧ (initLocals ["TestDriver", "-help"]).testName = "-help"
    ∧ (∃ output rest, (main quietWorld ["TestDriver", "-w", "64", "triangle"]).trace =
        [banner false, .TestDriver 64 768 false "-w" output "./Media"] ++ rest) :=
  ⟨(C8_scene_name_is_first_argument quietWorld ["TestDriver", "-w", "64", "triangle"]).1
      "-w" rfl,
    (C8_scene_name_is_first_argument quietWorld ["TestDriver", "-help"]).1 "-help" rfl,
    (C8_scene_name_is_first_argument quietWorld ["TestDriver", "-w", "64", "triangle"]).2.2.2.1
      ⟨64, 768, "-w", "", "./Media", false, 4⟩ (by decide) (by decide)⟩

/-- C9: invoked with no argument after the binary name, `main` prints the non-tiled
banner and constructs the driver with width 1024, height 768, scene name `sponza`,
the non-tiled backend, media base directory `./Media` and output path
`sponza_output.bmp`, and returns 0. -/
theorem C9_defaults (w : World) (binaryName : String) :
    (main w [binaryName]).status = some 0
    ∧ ∃ rest, (main w [binaryName]).trace =
        [.printf "*** Running REFERENCE non-tiled renderer implementation ***\n",
          .TestDriver 1024 768 false "sponza" "sponza_output.bmp" "./Media",
          .FrameBuffer 1024 768, .CreateForwardNonTiledRenderer, .SetFrameBuffer] ++ rest := by
  have h : parseArgs w.StringToInt [binaryName]
      = .parsed ⟨1024, 768, "sponza", "", "./Media", false, 1⟩ := rfl
  obtain ⟨rest, hrest⟩ := tryBlock_prologue w ⟨1024, 768, "sponza", "", "./Media", false, 1⟩
    "sponza_output.bmp"
  have hout : (if ("" : String) = "" then "sponza" ++ "_output.bmp" else "")
      = "sponza_output.bmp" := by decide
  rw [main_of_parsed w _ _ h, if_neg (by decide)]
  refine ⟨rfl, rest, ?_⟩
  show tryBlock w ⟨1024, 768, "sponza", "", "./Media", false, 1⟩
    (if ("" : String) = "" then "sponza" ++ "_output.bmp" else "") = _
  rw [hout, hrest]
  rfl

/-- C10: for a scene name `s` that is not an option or flag, a non-empty output path,
a media directory and two numerals that `StringToInt` reads as integers in
(0, 4096] (none of these values being `-tiled` or a help token), the argument list
`s -o p -w w -h h -mediadir d` makes `main` construct the driver with scene name
`s`, output path `p`, width `w`, height `h`, media base directory `d` and the
non-tiled backend, and return 0; each option that is left out leaves its field at
the default (1024, 768, `./Media`, `<s>_output.bmp`). -/
theorem C10_options_reach_driver (w : World) (binaryName s : String)
    (p ws hs d : Option String) (hscene : ¬ isFlagToken s)
    (hp : ∀ v ∈ p, v ≠ "" ∧ v ≠ "-tiled" ∧ ¬ isHelpToken v)
    (hw : ∀ v ∈ ws, 0 < w.StringToInt v ∧ w.StringToInt v ≤ 4096
      ∧ v ≠ "-tiled" ∧ ¬ isHelpToken v)
    (hh : ∀ v ∈ hs, 0 < w.StringToInt v ∧ w.StringToInt v ≤ 4096
      ∧ v ≠ "-tiled" ∧ ¬ isHelpToken v)
    (hd : ∀ v ∈ d, v ≠ "-tiled" ∧ ¬ isHelpToken v) :
    (main w (binaryName :: s :: (optionArgs "-o" p ++ optionArgs "-w" ws
        ++ optionArgs "-h" hs ++ optionArgs "-mediadir" d))).status = some 0
    ∧ ∃ rest, (main w (binaryName :: s :: (optionArgs "-o" p ++ optionArgs "-w" ws
        ++ optionArgs "-h" hs ++ optionArgs "-mediadir" d))).trace =
        [.printf "*** Running REFERENCE non-tiled renderer implementation ***\n",
          .TestDriver ((ws.map w.StringToInt).getD 1024) ((hs.map w.StringToInt).getD 768)
            false s (p.getD (s ++ "_output.bmp")) (d.getD "./Media"),
          .FrameBuffer ((ws.map w.StringToInt).getD 1024) ((hs.map w.StringToInt).getD 768),
          .CreateForwardNonTiledRenderer, .SetFrameBuffer] ++ rest := by
  have hparse := parseArgs_options w.StringToInt binaryName s p ws hs d hscene
    (fun v hv => (hp v hv).2) (fun v hv => (hw v hv).2.2) (fun v hv => (hh v hv).2.2) hd
  have hW : ¬ ((ws.map w.StringToInt).getD 1024 ≤ 0 ∨ (ws.map w.StringToInt).getD 1024 > 4096
      ∨ (hs.map w.StringToInt).getD 768 ≤ 0 ∨ (hs.map w.StringToInt).getD 768 > 4096) := by
    have h1 : 0 < (ws.map w.StringToInt).getD 1024 ∧ (ws.map w.StringToInt).getD 1024 ≤ 4096 := by
      cases ws with
      | none => exact ⟨by simp, by simp⟩
      | some v => exact ⟨(hw v rfl).1, (hw v rfl).2.1⟩
    have h2 : 0 < (hs.map w.StringToInt).getD 768 ∧ (hs.map w.StringToInt).getD 768 ≤ 4096 := by
      cases hs with
      | none => exact ⟨by simp, by simp⟩
      | some v => exact ⟨(hh v rfl).1, (hh v rfl).2.1⟩
    omega
  have hout : (if p.getD "" = "" then s ++ "_output.bmp" else p.getD "")
      = p.getD (s ++ "_output.bmp") := by
    cases p with
    | none => simp
    | some v => simp [(hp v rfl).1]
  rw [main_of_parsed w _ _ hparse, if_neg hW]
  obtain ⟨rest, hrest⟩ := tryBlock_prologue w
    ⟨(ws.map w.StringToInt).getD 1024, (hs.map w.StringToInt).getD 768, s, p.getD "",
      d.getD "./Media", false, (binaryName :: s :: (optionArgs "-o" p ++ optionArgs "-w" ws
        ++ optionArgs "-h" hs ++ optionArgs "-mediadir" d)).length⟩
    (p.getD (s ++ "_output.bmp"))
  refine ⟨rfl, rest, ?_⟩
  dsimp only
  rw [hout, hrest]
  rfl

/-- Witness of C10: `TestDriver triangle -o out.bmp -w 64 -h 64`, no media directory. -/
theorem C10_options_reach_driver_witness :
    (main quietWorld ["TestDriver", "triangle", "-o", "out.bmp", "-w", "64", "-h", "64"]).status
      = some 0
    ∧ ∃ rest,
      (main quietWorld ["TestDriver", "triangle", "-o", "out.bmp", "-w", "64", "-h", "64"]).trace =
        [.printf "*** Running REFERENCE non-tiled renderer implementation ***\n",
          .TestDriver 64 64 false "triangle" "out.bmp" "./Media",
          .FrameBuffer 64 64, .CreateForwardNonTiledRenderer, .SetFrameBuffer] ++ rest :=
  C10_options_reach_driver quietWorld "TestDriver" "triangle" (some "out.bmp") (some "64")
    (some "64") none (by decide)
    (by intro v hv; cases hv; decide) (by intro v hv; cases hv; decide)
    (by intro v hv; cases hv; decide) (by intro v hv; cases hv)

/-- C11: for every argument list with no help token and no `-o` after the binary name,
the output path handed to the driver, when the resolution is valid, is the
resolved scene name followed by `_output.bmp`; that path is never empty. -/
theorem C11_default_output_path (w : World) (argv : List String)
    (hno : ∀ s ∈ argv.tail, ¬ isHelpToken s) (hnoo : "-o" ∉ argv.tail) :
    ∃ a, parseArgs w.StringToInt argv = .parsed a
      ∧ a.testName ++ "_output.bmp" ≠ ""
      ∧ (validResolution a → ∃ rest, (main w argv).trace =
          [banner a.tiled,
            .TestDriver a.width a.height a.tiled a.testName (a.testName ++ "_output.bmp")
              a.baseDir] ++ rest) := by
  obtain ⟨a, ha, _⟩ := parseArgs_parsed w.StringToInt argv hno
  have hout : outputPath a = a.testName ++ "_output.bmp" := by
    simp [outputPath, parseArgs_testOutput_empty w.StringToInt argv a hnoo ha]
  refine ⟨a, ha, ?_, ?_⟩
  · intro h
    have := congrArg String.length h
    simp only [String.length_append] at this
    have h11 : "_output.bmp".length = 11 := by decide
    have h0 : "".length = 0 := by decide
    omega
  · intro hv
    rw [main_of_valid w argv a ha hv, hout]
    exact ⟨_, rfl⟩

/-- Witness of C11: `TestDriver triangle -w 64 -h 64` in the sample world. -/
theorem C11_default_output_path_witness :
    ∃ a, parseArgs quietWorld.StringToInt ["TestDriver", "triangle", "-w", "64", "-h", "64"]
        = .parsed a
      ∧ a.testName ++ "_output.bmp" ≠ ""
      ∧ (validResolution a → ∃ rest,
          (main quietWorld ["TestDriver", "triangle", "-w", "64", "-h", "64"]).trace =
          [banner a.tiled,
            .TestDriver a.width a.height a.tiled a.testName (a.testName ++ "_output.bmp")
              a.baseDir] ++ rest) :=
  C11_default_output_path quietWorld ["TestDriver", "triangle", "-w", "64", "-h", "64"]
    (by decide) (by decide)

/-- C12: for every argument list with no help token after the binary name, `tiled` is
set exactly when some argument after the binary name equals `-tiled`, at any
position; when the resolution is valid the driver is constructed with that flag
and the one renderer-factory call of the process is `CreateTiledRenderer` when it
is set and `CreateForwardNonTiledRenderer` otherwise. -/
theorem C12_backend_choice (w : World) (argv : List String)
    (hno : ∀ s ∈ argv.tail, ¬ isHelpToken s) :
    ∃ a, parseArgs w.StringToInt argv = .parsed a
      ∧ (a.tiled = true ↔ "-tiled" ∈ argv.tail)
      ∧ (validResolution a →
          rendererCreations (main w argv).trace =
            [if "-tiled" ∈ argv.tail then .CreateTiledRenderer
              else .CreateForwardNonTiledRenderer]
          ∧ ∃ output, .TestDriver a.width a.height (decide ("-tiled" ∈ argv.tail))
              a.testName output a.baseDir ∈ (main w argv).trace) := by
  obtain ⟨a, ha, _⟩ := parseArgs_parsed w.StringToInt argv hno
  have htiled := parseArgs_tiled_iff w.StringToInt argv a ha
  refine ⟨a, ha, htiled, ?_⟩
  intro hv
  have hdec : decide ("-tiled" ∈ argv.tail) = a.tiled := by
    cases ht : a.tiled with
    | true => exact decide_eq_true (htiled.1 ht)
    | false =>
      apply decide_eq_false
      intro hmem
      rw [htiled.2 hmem] at ht
      cases ht
  rw [main_of_valid w argv a ha hv]
  constructor
  · have hpro : rendererCreations (mainPrologue a (outputPath a)) =
        [if "-tiled" ∈ argv.tail then .CreateTiledRenderer
          else .CreateForwardNonTiledRenderer] := by
      by_cases hmem : "-tiled" ∈ argv.tail
      · simp [rendererCreations, mainPrologue, banner, htiled.2 hmem, hmem]
      · have hf : a.tiled = false := by
          cases ht : a.tiled with
          | true => exact absurd (htiled.1 ht) hmem
          | false => rfl
        simp [rendererCreations, mainPrologue, banner, hf, hmem]
    have hrun := rendererCreations_Run w (driverOf a)
    have hhandler := rendererCreations_handler ((driverOf a).Run w).result
    unfold rendererCreations at hpro hrun hhandler ⊢
    simp only [List.filter_append, hpro, hrun, hhandler]
    simp
  · refine ⟨outputPath a, ?_⟩
    rw [hdec]
    simp [mainPrologue]

/-- Witness of C12: `-tiled` directly after `-o`. -/
theorem C12_backend_choice_witness :
    ∃ a, parseArgs quietWorld.StringToInt ["TestDriver", "triangle", "-o", "-tiled"] = .parsed a
      ∧ (a.tiled = true ↔ "-tiled" ∈ ["TestDriver", "triangle", "-o", "-tiled"].tail)
      ∧ (validResolution a →
          rendererCreations (main quietWorld ["TestDriver", "triangle", "-o", "-tiled"]).trace =
            [if "-tiled" ∈ ["TestDriver", "triangle", "-o", "-tiled"].tail
              then .CreateTiledRenderer else .CreateForwardNonTiledRenderer]
          ∧ ∃ output, .TestDriver a.width a.height
              (decide ("-tiled" ∈ ["TestDriver", "triangle", "-o", "-tiled"].tail))
              a.testName output a.baseDir
                ∈ (main quietWorld ["TestDriver", "triangle", "-o", "-tiled"]).trace) :=
  C12_backend_choice quietWorld ["TestDriver", "triangle", "-o", "-tiled"] (by decide)

/-- C13, the code at the failing input: whenever the command line is read, the
resolution is valid and `Run` ends with an exception `x`, `main` prints the
handler's output for `x` and still returns 0, the status of a successful run. -/
theorem C13_caught_error_returns_zero (w : World) (argv : List String) (a : Locals) (x : Exn)
    (hparse : parseArgs w.StringToInt argv = .parsed a) (hv : validResolution a)
    (hrun : ((driverOf a).Run w).result = .error x) :
    (main w argv).status = some 0
    ∧ (main w argv).trace =
        mainPrologue a (outputPath a) ++ ((driverOf a).Run w).trace ++ [.DestroyRenderer]
          ++ catchEvents x := by
  rw [main_of_valid w argv a hparse hv, hrun]
  exact ⟨rfl, rfl⟩

/-- Witness of C13: `TestDriver sibenik` with the media directory missing prints the
I/O diagnostic and the hint, and returns 0. -/
theorem C13_caught_error_returns_zero_witness :
    (main missingMediaWorld ["TestDriver", "sibenik"]).status = some 0
    ∧ (main missingMediaWorld ["TestDriver", "sibenik"]).trace =
        [.printf "*** Running REFERENCE non-tiled renderer implementation ***\n",
          .TestDriver 1024 768 false "sibenik" "sibenik_output.bmp" "./Media",
          .FrameBuffer 1024 768, .CreateForwardNonTiledRenderer, .SetFrameBuffer,
          .printf "Loading scene...\n", .CreateTestScene 2 (some "./Media"),
          .DestroyRenderer, .printf "Cannot open file.\n",
          .printf "Make sure the 'Media' directory is placed in the current working dir, or basepath set using -mediadir\n"] :=
  C13_caught_error_returns_zero missingMediaWorld ["TestDriver", "sibenik"] sibenikLocals
    (.IOException "Cannot open file.") (by decide) (by decide) rfl

/-- C14: in every run of `main` that constructs the driver (command line read,
resolution valid), whatever the scene constructor and the renderer operations
return or raise, `DestroyRenderer` is called exactly once, after the one
renderer-factory call and after every other call that uses the renderer; what
follows it is handler output only.  This covers `Run` completing, `Run` returning
on an unknown scene name, and an exception raised in `Run` and caught in `main`. -/
theorem C14_destroy_once_last (w : World) (argv : List String) (a : Locals)
    (hparse : parseArgs w.StringToInt argv = .parsed a) (hv : validResolution a) :
    destroyedOnceAtEnd (main w argv).trace
    ∧ destroyCalls (main w argv).trace = [.DestroyRenderer]
    ∧ ∃ pre post, (main w argv).trace = pre ++ [.DestroyRenderer] ++ post
        ∧ rendererCreations pre =
            [if a.tiled then .CreateTiledRenderer else .CreateForwardNonTiledRenderer]
        ∧ ∀ e ∈ post, ∃ text, e = .printf text := by
  have hpro : destroyCalls (mainPrologue a (outputPath a)) = [] := by
    cases ht : a.tiled <;> simp [destroyCalls, mainPrologue, banner, ht]
  have hrun := destroyCalls_Run w (driverOf a)
  have hhandler := destroyCalls_handler ((driverOf a).Run w).result
  have hpre : destroyCalls (mainPrologue a (outputPath a) ++ ((driverOf a).Run w).trace)
      = [] := by
    unfold destroyCalls at hpro hrun ⊢
    rw [List.filter_append, hpro, hrun]
    rfl
  rw [main_of_valid w argv a hparse hv]
  refine ⟨⟨_, _, rfl, hpre, hhandler, ?_⟩, ?_, ⟨_, _, rfl, ?_, ?_⟩⟩
  · intro e he
    obtain ⟨text, rfl⟩ := handler_printf _ e he
    rfl
  · unfold destroyCalls at hpre hhandler ⊢
    simp only [List.filter_append, hpre, hhandler]
    simp [List.filter_append]
  · have hc := rendererCreations_Run w (driverOf a)
    unfold rendererCreations at hc ⊢
    rw [List.filter_append, hc]
    cases ht : a.tiled <;> simp [mainPrologue, banner, ht]
  · exact handler_printf _

/-- Witness of C14: a successful run, an unknown scene name, a missing media directory
(I/O error raised by the scene constructor) and a renderer operation that raises. -/
theorem C14_destroy_once_last_witness :
    destroyCalls (main quietWorld ["TestDriver", "triangle"]).trace = [.DestroyRenderer]
    ∧ destroyCalls (main quietWorld ["TestDriver", "doesnotexist"]).trace = [.DestroyRenderer]
    ∧ destroyCalls (main missingMediaWorld ["TestDriver", "sibenik"]).trace
        = [.DestroyRenderer]
    ∧ destroyCalls (main faultyWorld ["TestDriver", "triangle"]).trace = [.DestroyRenderer]
    ∧ destroyedOnceAtEnd (main faultyWorld ["TestDriver", "triangle"]).trace :=
  ⟨(C14_destroy_once_last quietWorld ["TestDriver", "triangle"] triangleLocals
      (by decide) (by decide)).2.1,
    (C14_destroy_once_last quietWorld ["TestDriver", "doesnotexist"] unknownLocals
      (by decide) (by decide)).2.1,
    (C14_destroy_once_last missingMediaWorld ["TestDriver", "sibenik"] sibenikLocals
      (by decide) (by decide)).2.1,
    (C14_destroy_once_last faultyWorld ["TestDriver", "triangle"] triangleLocals
      (by decide) (by decide)).2.1,
    (C14_destroy_once_last faultyWorld ["TestDriver", "triangle"] triangleLocals
      (by decide) (by decide)).1⟩

/-- C15: in a run of `main` that constructs the driver, when the scene name is unknown,
or the scene constructor raises, or one of the 21 operations of the warm-up pass
and the six timed passes raises, `SaveColorBuffer` is never called.  When the
scene constructor raises an `IOException`, the run after the driver's construction
is exactly: the loading line, the constructor call, the destructor, the error
message and the hint about the `Media` directory and `-mediadir`; so no `Clear`,
`Draw` or `Finish` is issued. -/
theorem C15_no_save_on_failure (w : World) (argv : List String) (a : Locals)
    (hparse : parseArgs w.StringToInt argv = .parsed a) (hv : validResolution a) :
    ((a.testName ∉ sceneNames
        ∨ (∃ n b x, (driverOf a).selectScene = some (n, b) ∧ w.CreateTestScene n b = .error x)
        ∨ (∃ k, k < 21 ∧ w.fault k ≠ none)) →
      saveCalls (main w argv).trace = [])
    ∧ (∀ n b Message, (driverOf a).selectScene = some (n, b) →
        w.CreateTestScene n b = .error (.IOException Message) →
        (main w argv).trace = mainPrologue a (outputPath a) ++
          [.printf "Loading scene...\n", .CreateTestScene n b, .DestroyRenderer,
            .printf (Message ++ "\n"),
            .printf "Make sure the 'Media' directory is placed in the current working dir, or basepath set using -mediadir\n"]
        ∧ rendererOps (main w argv).trace = []) := by
  constructor
  · intro h
    rw [saveCalls_main w argv a hparse hv]
    exact Run_no_save w (driverOf a) h
  · intro n b m hsel hc
    have hrun : (driverOf a).Run w =
        ⟨[.printf "Loading scene...\n", .CreateTestScene n b], .error (.IOException m)⟩ := by
      simp [TestDriver.Run, hsel, hc, emit, callWith, Outcome.bind_ok, Outcome.bind_error]
    have htrace : (main w argv).trace = mainPrologue a (outputPath a) ++
          [.printf "Loading scene...\n", .CreateTestScene n b, .DestroyRenderer,
            .printf (m ++ "\n"),
            .printf "Make sure the 'Media' directory is placed in the current working dir, or basepath set using -mediadir\n"] := by
      rw [main_of_valid w argv a hparse hv, hrun]
      simp [catchEvents]
    refine ⟨htrace, ?_⟩
    rw [htrace]
    cases ht : a.tiled <;> simp [rendererOps, mainPrologue, banner, ht]

/-- Witness of C15: a renderer operation that raises in the second timed pass, and a
missing media directory for the scene `sibenik`. -/
theorem C15_no_save_on_failure_witness :
    saveCalls (main faultyWorld ["TestDriver", "triangle"]).trace = []
    ∧ (main missingMediaWorld ["TestDriver", "sibenik"]).trace =
        mainPrologue sibenikLocals (outputPath sibenikLocals) ++
          [.printf "Loading scene...\n", .CreateTestScene 2 (some "./Media"), .DestroyRenderer,
            .printf ("Cannot open file." ++ "\n"),
            .printf "Make sure the 'Media' directory is placed in the current working dir, or basepath set using -mediadir\n"]
    ∧ rendererOps (main missingMediaWorld ["TestDriver", "sibenik"]).trace = [] :=
  ⟨(C15_no_save_on_failure faultyWorld ["TestDriver", "triangle"] triangleLocals
      (by decide) (by decide)).1 (Or.inr (Or.inr ⟨7, by decide, by decide⟩)),
    (C15_no_save_on_failure missingMediaWorld ["TestDriver", "sibenik"] sibenikLocals
      (by decide) (by decide)).2 2 (some "./Media") "Cannot open file." (by decide) rfl⟩

/-- C16: for the scene names `triangle` and `alphablend` the run does not depend on the
media base directory: with any other base directory `TestDriver::Run` is the same
(same constructor call without a directory argument, same operations, same
result).  For each of the six other names the one constructor call receives the
base directory. -/
theorem C16_media_directory_use (w : World) (d : TestDriver) (dir : String) :
    ((d.testName = "triangle" ∨ d.testName = "alphablend") →
      TestDriver.Run w { d with baseDir := dir } = d.Run w
      ∧ ∃ k, sceneCalls (d.Run w).trace = [.CreateTestScene k none])
    ∧ (∀ k (hk : k < sceneNames.length), d.testName = sceneNames[k] → k ≠ 0 → k ≠ 6 →
        sceneCalls (d.Run w).trace = [.CreateTestScene k (some d.baseDir)]) := by
  constructor
  · rintro (h | h)
    · refine ⟨by simp [TestDriver.Run, TestDriver.selectScene, h], 0, ?_⟩
      exact sceneCalls_Run w d 0 none (by simp [TestDriver.selectScene, h])
    · refine ⟨by simp [TestDriver.Run, TestDriver.selectScene, h], 6, ?_⟩
      exact sceneCalls_Run w d 6 none (by simp [TestDriver.selectScene, h])
  · intro k hk hname h0 h6
    apply sceneCalls_Run
    simp only [sceneNames, List.length_cons, List.length_nil] at hk
    interval_cases k <;> simp [sceneNames] at hname h0 h6 ⊢ <;>
      simp [TestDriver.selectScene, hname]

/-- Witness of C16: `triangle` with another base directory, and `sponza`. -/
theorem C16_media_directory_use_witness :
    (TestDriver.Run quietWorld { triangleDriver with baseDir := "/nowhere" }
        = triangleDriver.Run quietWorld
      ∧ ∃ k, sceneCalls (triangleDriver.Run quietWorld).trace = [.CreateTestScene k none])
    ∧ sceneCalls (sponzaDriver.Run quietWorld).trace
        = [.CreateTestScene 4 (some "../../Media")] :=
  ⟨(C16_media_directory_use quietWorld triangleDriver "/nowhere").1 (Or.inl rfl),
    (C16_media_directory_use quietWorld sponzaDriver "").2 4 (by decide) rfl
      (by decide) (by decide)⟩

/-- C17: the backend mode is used by the constructor's factory call and the banner
only.  `TestDriver::Run` is the same for both modes (same scene constructor, same
operations with the same arguments, same frame time); and the two runs of the
`try` block of `main` differ in the banner, in the flag given to the driver's
constructor and in the factory call, and in nothing after them. -/
theorem C17_backend_opaque (w : World) (d : TestDriver) (a : Locals) (testOutput : String) :
    TestDriver.Run w { d with tiled := true } = TestDriver.Run w { d with tiled := false }
    ∧ ∃ tail,
        tryBlock w { a with tiled := true } testOutput =
          [.printf "*** Running TILED renderer implementation ***\n",
            .TestDriver a.width a.height true a.testName testOutput a.baseDir,
            .FrameBuffer a.width a.height, .CreateTiledRenderer, .SetFrameBuffer] ++ tail
        ∧ tryBlock w { a with tiled := false } testOutput =
          [.printf "*** Running REFERENCE non-tiled renderer implementation ***\n",
            .TestDriver a.width a.height false a.testName testOutput a.baseDir,
            .FrameBuffer a.width a.height, .CreateForwardNonTiledRenderer, .SetFrameBuffer]
            ++ tail := by
  have hrun : ∀ d : TestDriver,
      TestDriver.Run w { d with tiled := true } = TestDriver.Run w { d with tiled := false } :=
    fun _ => rfl
  have htail : afterConstruction w ⟨a.baseDir, a.testName, testOutput, a.width, a.height, true⟩
      = afterConstruction w ⟨a.baseDir, a.testName, testOutput, a.width, a.height, false⟩ := by
    unfold afterConstruction
    rw [show TestDriver.Run w ⟨a.baseDir, a.testName, testOutput, a.width, a.height, true⟩
      = TestDriver.Run w ⟨a.baseDir, a.testName, testOutput, a.width, a.height, false⟩
      from hrun ⟨a.baseDir, a.testName, testOutput, a.width, a.height, false⟩]
  refine ⟨hrun d,
    afterConstruction w ⟨a.baseDir, a.testName, testOutput, a.width, a.height, false⟩, ?_, ?_⟩
  · rw [tryBlock_eq, ← htail]
    simp only [mainPrologue, banner, afterConstruction, List.append_assoc]
    rfl
  · rw [tryBlock_eq]
    simp only [mainPrologue, banner, afterConstruction, List.append_assoc]
    rfl

/-- C18, counterexample: in `TestDriver triangle -o -w` the last argument is the
value-taking option `-w`, and it is not ignored: `-o` before it consumes it, so
the output path, empty for `TestDriver triangle -o`, becomes `-w` and the driver is
constructed with it. -/
theorem C18_counterexample :
    isValueOption "-w"
    ∧ parseArgs quietWorld.StringToInt ["TestDriver", "triangle", "-o"]
        = .parsed ⟨1024, 768, "triangle", "", "./Media", false, 3⟩
    ∧ parseArgs quietWorld.StringToInt ["TestDriver", "triangle", "-o", "-w"]
        = .parsed ⟨1024, 768, "triangle", "-w", "./Media", false, 4⟩
    ∧ .TestDriver 1024 768 false "triangle" "-w" "./Media"
        ∈ (main quietWorld ["TestDriver", "triangle", "-o", "-w"]).trace
    ∧ ¬ lastArgumentIgnored quietWorld.StringToInt ["TestDriver", "triangle", "-o"] "-w" := by
  have h1 : parseArgs quietWorld.StringToInt ["TestDriver", "triangle", "-o"]
      = .parsed ⟨1024, 768, "triangle", "", "./Media", false, 3⟩ := by decide
  have h2 : parseArgs quietWorld.StringToInt ["TestDriver", "triangle", "-o", "-w"]
      = .parsed ⟨1024, 768, "triangle", "-w", "./Media", false, 4⟩ := by decide
  refine ⟨by decide, h1, h2, ?_, ?_⟩
  · rw [main_of_valid quietWorld _ _ h2 (by decide)]
    simp [mainPrologue, outputPath]
  · rintro (⟨h, _⟩ | ⟨a, a2, ha, ha2, _, _, hout, _⟩)
    · rw [h1] at h; cases h
    · have e2 : parseArgs quietWorld.StringToInt (["TestDriver", "triangle", "-o"] ++ ["-w"])
          = .parsed ⟨1024, 768, "triangle", "-w", "./Media", false, 4⟩ := h2
      rw [h1] at ha
      rw [e2] at ha2
      cases ha
      cases ha2
      exact absurd hout (by decide)

/-- C18, amended: for every argument list the command-line loop of `main` ends within
`argc` iterations, in `exit(0)` or with `ptr` at `argc`, and never reads `argv[i]`
with `i ≥ argc`.  One of `-o`, `-w`, `-h`, `-mediadir` as the last argument
consumes nothing.  Compared with the argument list without it, either it is
ignored (the command line ends the same way, with the same width, height, output
path, media directory and backend flag), or it is consumed as the value of the
value-taking option before it (the variable of that option is set from it, the
others stay); it is always ignored when the argument before it is not one of the
four options.  An iteration that stands on it in the last position changes no
local but `ptr`, and the loop ends there. -/
theorem C18_loop_safety (S : String → Int) (argv : List String) :
    (parseArgs S argv = .usageExit
      ∨ ∃ a, parseArgs S argv = .parsed a ∧ argv.length ≤ a.ptr)
    ∧ (∀ i, parseArgs S argv ≠ .badAccess i) ∧ parseArgs S argv ≠ .outOfFuel
    ∧ (∀ pre o, argv = pre ++ [o] → pre ≠ [] → isValueOption o →
        (lastArgumentIgnored S pre o ∨ lastArgumentConsumed S pre o)
        ∧ ((∀ p, 2 ≤ pre.length → pre.getLast? = some p → ¬ isValueOption p) →
            lastArgumentIgnored S pre o))
    ∧ (∀ (a : Locals) (o : String) (fuel : Nat), a.ptr + 1 = argv.length →
        argv[a.ptr]? = some o → isValueOption o →
        loopBody S argv a = .parsed { a with ptr := a.ptr + 1 }
        ∧ parseLoop S argv (fuel + 1) a = .parsed { a with ptr := a.ptr + 1 }) := by
  have htotal := parseLoop_total S argv argv.length (initLocals argv)
    (by simp only [initLocals]; omega)
  refine ⟨?_, ?_, ?_, ?_, ?_⟩
  · rcases htotal with h | ⟨a, h⟩
    · exact Or.inl h
    · exact Or.inr ⟨a, h, parseLoop_ptr_end S argv argv.length (initLocals argv) a h⟩
  · intro i hbad
    rcases htotal with h | ⟨a, h⟩ <;>
      · rw [show parseLoop S argv argv.length (initLocals argv) = parseArgs S argv from rfl,
          hbad] at h
        cases h
  · intro hbad
    rcases htotal with h | ⟨a, h⟩ <;>
      · rw [show parseLoop S argv argv.length (initLocals argv) = parseArgs S argv from rfl,
          hbad] at h
        cases h
  · intro pre o _ hpre ho
    have key := parseArgs_append S pre o hpre ho
    refine ⟨key, ?_⟩
    intro hnot
    rcases key with h | ⟨p, _, _, h0, h1, h2, _⟩
    · exact h
    · exact absurd h2 (hnot p h0 h1)
  · intro a o fuel hlast ho hval
    exact ⟨loopBody_last_option S argv a o hlast ho hval,
      parseLoop_last_option S argv a o fuel hlast ho hval⟩

/-- Witness of the amended C18: `-w` in the last position after the scene name is
ignored; after `-o` it is ignored or consumed. -/
theorem C18_loop_safety_witness :
    lastArgumentIgnored quietWorld.StringToInt ["TestDriver", "triangle"] "-w"
    ∧ (lastArgumentIgnored quietWorld.StringToInt ["TestDriver", "triangle", "-o"] "-w"
      ∨ lastArgumentConsumed quietWorld.StringToInt ["TestDriver", "triangle", "-o"] "-w")
    ∧ parseLoop quietWorld.StringToInt ["TestDriver", "triangle", "-w"] 1 triangleLocals
      = .parsed ⟨1024, 768, "triangle", "", "./Media", false, 3⟩
    ∧ parseArgs quietWorld.StringToInt ["TestDriver", "triangle", "-w"] ≠ .outOfFuel :=
  ⟨((C18_loop_safety quietWorld.StringToInt ["TestDriver", "triangle", "-w"]).2.2.2.1
      ["TestDriver", "triangle"] "-w" rfl (by decide) (by decide)).2
      (by intro p _ hp; cases hp; decide),
    ((C18_loop_safety quietWorld.StringToInt ["TestDriver", "triangle", "-o", "-w"]).2.2.2.1
      ["TestDriver", "triangle", "-o"] "-w" rfl (by decide) (by decide)).1,
    ((C18_loop_safety quietWorld.StringToInt ["TestDriver", "triangle", "-w"]).2.2.2.2
      triangleLocals "-w" 0 rfl rfl (by decide)).2,
    (C18_loop_safety quietWorld.StringToInt ["TestDriver", "triangle", "-w"]).2.2.1⟩

end RasterRenderer
